import Mathlib

/-!
# aws-github-runner: a verification development

A shallow embedding of `src/aws.go`, `src/github.go` and `src/main.go`.

* The Compute Provider (EC2 SDK client) and the Registration Service (GitHub
  client) are external collaborators.  Every call the code makes on them is a
  constructor of `Call`; a `World` answers a call from the calls made so far.
* A Go method that talks to a collaborator is a value of `Prog`: a tree whose
  nodes are the calls the method makes, in source order, and whose leaves are
  what it returns (or a nil-pointer panic, or `log.Fatalf`).
* `Prog.run` executes such a tree sequentially.  The two goroutines that
  `StartRunner` and `StopRunner` spawn are executed by `joinTasks`, one atomic
  step at a time, in the order a `Schedule` dictates.
* Go `error` values are modelled by their message.
-/

namespace AwsGithubRunner

/-! ## Configuration and runner state (`src/main.go`) -/

/-- Go `error`, modelled by its message. -/
abbrev Error := String

/-- The SDK type `types.Tag`: both fields are `*string`. -/
structure Tag where
  Key : Option String
  Value : Option String
deriving DecidableEq, Repr

structure SpotConfig where
  ProvisioningMode : String
  Region : String
deriving DecidableEq, Repr

structure EC2RunnerConfig where
  EC2ImageID : String
  EC2InstanceType : String
  SubnetID : String
  SecurityGroupID : String
  IamInstanceRole : String
  AWSResourceTags : List Tag
  RepositoryURL : String
  SpotInstance : Bool
  Spot : SpotConfig
deriving DecidableEq, Repr

structure GithubRunnerConfig where
  GitHubToken : String
  GitHubTokenType : String
  GitHubOrgRunner : Bool
deriving DecidableEq, Repr

structure RunnerConfig where
  Mode : String
  GithubRunnerConfig : GithubRunnerConfig
  EC2RunnerConfig : EC2RunnerConfig
deriving DecidableEq, Repr

/-! ## Provisioning modes (`src/aws.go`, lines 16-21) -/

def ProvisioningModeNone : String := "None"
def ProvisioningModeSpotOnly : String := "SpotOnly"
def ProvisioningModeBestEffort : String := "BestEffort"
def ProvisioningModeMaxPerformance : String := "MaxPerformance"

/-! ## Request and response shapes of the collaborators

Pointer-typed SDK fields are `Option`s; `aws.String x` is `some x`. -/

/-- The SDK constant `types.ResourceTypeInstance`. -/
def ResourceTypeInstance : String := "instance"
/-- The SDK constant `types.ResourceTypeSpotInstancesRequest`. -/
def ResourceTypeSpotInstancesRequest : String := "spot-instances-request"
/-- The SDK constant `types.SpotInstanceTypeOneTime`. -/
def SpotInstanceTypeOneTime : String := "one-time"

structure IamInstanceProfileSpecification where
  Name : Option String
deriving DecidableEq, Repr

structure TagSpecification where
  ResourceType : String
  Tags : List Tag
deriving DecidableEq, Repr

/-- Input of `DescribeSpotPriceHistory`.  The two instants are kept relative to
the moment of the call, in seconds: `time.Now().Add(-1 * time.Hour)` is `-3600`
and `time.Now()` is `0`. -/
structure DescribeSpotPriceHistoryInput where
  InstanceTypes : List String
  ProductDescriptions : List String
  StartTime : Option Int
  EndTime : Option Int
deriving DecidableEq, Repr

structure RequestSpotLaunchSpecification where
  ImageId : Option String
  InstanceType : String
  SubnetId : Option String
  SecurityGroupIds : List String
  UserData : Option String
  IamInstanceProfile : Option IamInstanceProfileSpecification
deriving DecidableEq, Repr

structure RequestSpotInstancesInput where
  SpotPrice : Option String
  InstanceCount : Option Int
  LaunchSpecification : Option RequestSpotLaunchSpecification
  TagSpecifications : List TagSpecification
  RequestType : String
deriving DecidableEq, Repr

structure RunInstancesInput where
  ImageId : Option String
  InstanceType : String
  MinCount : Option Int
  MaxCount : Option Int
  SubnetId : Option String
  SecurityGroupIds : List String
  TagSpecifications : List TagSpecification
  UserData : Option String
  IamInstanceProfile : Option IamInstanceProfileSpecification
deriving DecidableEq, Repr

/-- One entry of `DescribeSpotPriceHistoryOutput.SpotPriceHistory`. -/
structure SpotPricePoint where
  SpotPrice : Option String
deriving DecidableEq, Repr

/-- One entry of `SpotInstanceRequests` in the spot request responses. -/
structure SpotInstanceRequest where
  SpotInstanceRequestId : Option String
  InstanceId : Option String
deriving DecidableEq, Repr

/-- One entry of `RunInstancesOutput.Instances`. -/
structure Instance where
  InstanceId : Option String
deriving DecidableEq, Repr

/-- The go-github type `RegistrationToken`. -/
structure RegistrationToken where
  Token : Option String
deriving DecidableEq, Repr

/-- One entry of the active-agent listing (go-github `Runner`). -/
structure GhRunner where
  ID : Option Int
  Name : Option String
  Status : Option String
deriving DecidableEq, Repr

/-- The nil-safe getter `(*Runner).GetID`. -/
def GhRunner.GetID (r : GhRunner) : Int := r.ID.getD 0
/-- The nil-safe getter `(*Runner).GetName`. -/
def GhRunner.GetName (r : GhRunner) : String := r.Name.getD ""
/-- The nil-safe getter `(*Runner).GetStatus`. -/
def GhRunner.GetStatus (r : GhRunner) : String := r.Status.getD ""

/-- Which case of the `select` in `WaitForRunnerRegistered` fires. -/
inductive SelectCase where
  | ctxDone (err : Error)
  | timeout
  | tick
deriving DecidableEq, Repr

/-! ## Calls on the collaborators -/

/-- Every externally visible action of the code: the SDK calls with their
inputs, the `select` of the registration watcher, and `cancel()` of the shared
context.  `ListOrganizationRunners` and `RemoveOrganizationRunner` are the
organization-scoped endpoints the Registration Service offers next to
`ListRunners` and `RemoveRunner`. -/
inductive Call where
  | DescribeSpotPriceHistory (input : DescribeSpotPriceHistoryInput)
  | RequestSpotInstances (input : RequestSpotInstancesInput)
  | SpotInstanceRequestFulfilledWait (spotInstanceRequestIds : List String) (maxWaitSeconds : Nat)
  | DescribeSpotInstanceRequests (spotInstanceRequestIds : List String)
  | RunInstances (input : RunInstancesInput)
  | InstanceRunningWait (instanceIds : List String) (maxWaitSeconds : Nat)
  | InstanceStatusOkWait (instanceIds : List String) (maxWaitSeconds : Nat)
  | TerminateInstances (instanceIds : List String)
  | CreateOrganizationRegistrationToken (owner : String)
  | CreateRegistrationToken (owner repo : String)
  | ListRunners (owner repo : String)
  | RemoveRunner (owner repo : String) (runnerID : Int)
  | ListOrganizationRunners (org : String)
  | RemoveOrganizationRunner (org : String) (runnerID : Int)
  | Select
  | Cancel
deriving DecidableEq, Repr

/-- The type of the answer to a call: `Except` where the SDK returns a value and
an error, `Option Error` where it returns only an error. -/
@[reducible] def Call.Resp : Call → Type
  | .DescribeSpotPriceHistory _ => Except Error (List SpotPricePoint)
  | .RequestSpotInstances _ => Except Error (List SpotInstanceRequest)
  | .SpotInstanceRequestFulfilledWait _ _ => Option Error
  | .DescribeSpotInstanceRequests _ => Except Error (List SpotInstanceRequest)
  | .RunInstances _ => Except Error (List Instance)
  | .InstanceRunningWait _ _ => Option Error
  | .InstanceStatusOkWait _ _ => Option Error
  | .TerminateInstances _ => Option Error
  | .CreateOrganizationRegistrationToken _ => Except Error RegistrationToken
  | .CreateRegistrationToken _ _ => Except Error RegistrationToken
  | .ListRunners _ _ => Except Error (List GhRunner)
  | .RemoveRunner _ _ _ => Option Error
  | .ListOrganizationRunners _ => Except Error (List GhRunner)
  | .RemoveOrganizationRunner _ _ => Option Error
  | .Select => SelectCase
  | .Cancel => Unit

/-- The scope of a Registration Service request. -/
inductive Scope where
  | organization (owner : String)
  | repository (owner repo : String)
deriving DecidableEq, Repr

/-- The scope a call on the Registration Service is made at. -/
def Call.scope : Call → Option Scope
  | .CreateOrganizationRegistrationToken owner => some (.organization owner)
  | .CreateRegistrationToken owner repo => some (.repository owner repo)
  | .ListRunners owner repo => some (.repository owner repo)
  | .RemoveRunner owner repo _ => some (.repository owner repo)
  | .ListOrganizationRunners org => some (.organization org)
  | .RemoveOrganizationRunner org _ => some (.organization org)
  | _ => none

/-- Is the call a run request (the on-demand path)? -/
def Call.isRunInstances : Call → Bool
  | .RunInstances _ => true
  | _ => false

/-- The collaborators: the answer to a call may depend on every call made
before it (in particular on whether the shared context was cancelled). -/
structure World where
  respond : List Call → (c : Call) → c.Resp

/-! ## Programs -/

/-- A Go method body as a tree of calls. -/
inductive Prog (α : Type) : Type where
  | ret (a : α) : Prog α
  | nilDeref : Prog α
  | fatal (msg : String) : Prog α
  | call (c : Call) (k : c.Resp → Prog α) : Prog α

/-- Sequencing of programs. -/
def Prog.bind {α β : Type} : Prog α → (α → Prog β) → Prog β
  | .ret a, f => f a
  | .nilDeref, _ => .nilDeref
  | .fatal msg, _ => .fatal msg
  | .call c k, f => .call c (fun r => (k r).bind f)

instance : Monad Prog where
  pure := Prog.ret
  bind := Prog.bind

/-- Why a process stopped without returning. -/
inductive Abort where
  | nilDeref
  | fatal (msg : String)
deriving DecidableEq, Repr

inductive Outcome (α : Type) where
  | returned (a : α)
  | aborted (a : Abort)
deriving DecidableEq, Repr

/-- Sequential execution: each call is answered by the world and appended to
the trace. -/
def Prog.run {α : Type} (w : World) : Prog α → List Call → Outcome α × List Call
  | .ret a, t => (.returned a, t)
  | .nilDeref, t => (.aborted .nilDeref, t)
  | .fatal msg, t => (.aborted (.fatal msg), t)
  | .call c k, t => (k (w.respond t c)).run w (t ++ [c])

/-- Dereference of a pointer: a nil pointer panics. -/
def deref {α : Type} : Option α → Prog α
  | some a => .ret a
  | none => .nilDeref

/-- Issue a call and return its answer. -/
def perform (c : Call) : Prog c.Resp := .call c .ret

/-! ## Library functions used by the code -/

/-- Go `strings.TrimPrefix`. -/
def TrimPrefix (s pre : String) : String :=
  if pre.toList.isPrefixOf s.toList then String.mk (s.toList.drop pre.length) else s

/-- Go `strings.Split` on a one-character separator, on character lists. -/
def splitChars (sep : Char) : List Char → List (List Char)
  | [] => [[]]
  | c :: cs =>
    if c = sep then [] :: splitChars sep cs
    else
      match splitChars sep cs with
      | [] => [[c]]
      | p :: ps => (c :: p) :: ps

/-- Go `strings.Split(s, "/")`. -/
def SplitSlash (s : String) : List String :=
  (splitChars '/' s.toList).map String.mk

def base64Alphabet : List Char :=
  "ABCDEFGHIJKLMNOPQRSTUVWXYZabcdefghijklmnopqrstuvwxyz0123456789+/".toList

def base64Digit (n : Nat) : Char := base64Alphabet.getD n '='

/-- Standard base64 with padding, on bytes. -/
def base64Bytes : List Nat → List Char
  | [] => []
  | [a] => [base64Digit (a / 4), base64Digit (a % 4 * 16), '=', '=']
  | [a, b] =>
    [base64Digit (a / 4), base64Digit (a % 4 * 16 + b / 16), base64Digit (b % 16 * 4), '=']
  | a :: b :: c :: rest =>
    base64Digit (a / 4) :: base64Digit (a % 4 * 16 + b / 16) ::
      base64Digit (b % 16 * 4 + c / 64) :: base64Digit (c % 64) :: base64Bytes rest

/-- Go `base64.StdEncoding.EncodeToString([]byte(s))`. -/
def EncodeToString (s : String) : String :=
  String.mk (base64Bytes (s.toUTF8.toList.map UInt8.toNat))

/-! ## `src/github.go`: repository reference -/

/-- `parseRepositoryURL`: owner and repository, or the error. -/
def parseRepositoryURL (url : String) : Except Error (String × String) :=
  match SplitSlash (TrimPrefix url "https://github.com/") with
  | p0 :: p1 :: _ => .ok (p0, p1)
  | _ => .error "invalid repository URL"

/-! ## `src/aws.go` -/

structure EC2 where
  config : EC2RunnerConfig
deriving DecidableEq, Repr

structure AWSClient where
  Ec2 : EC2
deriving DecidableEq, Repr

def NewAWSClient (config : EC2RunnerConfig) : AWSClient :=
  { Ec2 := { config := config } }

/-- `prepareUserData`: the boot payload.  The error of `parseRepositoryURL` is
discarded; owner and repository are then both empty. -/
def prepareUserData (r : AWSClient) (label registrationToken : String) (orgRunner : Bool) :
    String :=
  let (owner, repo) :=
    match parseRepositoryURL r.Ec2.config.RepositoryURL with
    | .ok p => p
    | .error _ => ("", "")
  let url := if orgRunner then "https://github.com/" ++ owner ++ "/"
    else "https://github.com/" ++ owner ++ "/" ++ repo
  let userData :=
    "#!/bin/bash\n" ++
    "\techo \"Configuring GitHub Runner\"\n" ++
    "\tmkdir -p /actions-runner\n" ++
    "\tcd /actions-runner\n" ++
    "\tcase $(uname -m) in aarch64) ARCH=\"arm64\" ;; amd64|x86_64) ARCH=\"x64\" ;; esac && export RUNNER_ARCH=$\x7bARCH\x7d\n" ++
    "\tcurl -O -L https://github.com/actions/runner/releases/download/v2.313.0/actions-runner-linux-$\x7bRUNNER_ARCH\x7d-2.313.0.tar.gz\n" ++
    "\ttar xzf ./actions-runner-linux-$\x7bRUNNER_ARCH\x7d-2.313.0.tar.gz\n" ++
    "\texport RUNNER_ALLOW_RUNASROOT=1\n" ++
    "\t./config.sh --url " ++ url ++ " --token " ++ registrationToken ++ " --name " ++ label ++
      " --work _work --labels " ++ label ++ "\n" ++
    "\t./run.sh\n" ++
    "\t"
  EncodeToString userData

/-- The price history request `FetchSpotPrice` builds. -/
def priceInput (instanceType : String) : DescribeSpotPriceHistoryInput :=
  { InstanceTypes := [instanceType]
    ProductDescriptions := ["Linux/UNIX"]
    StartTime := some (-3600)
    EndTime := some 0 }

/-- `FetchSpotPrice`: the price of the first entry of the last hour's history. -/
def FetchSpotPrice (_c : AWSClient) (region instanceType : String) :
    Prog (Except Error String) := do
  let result ← perform (.DescribeSpotPriceHistory (priceInput instanceType))
  match result with
  | .error err => return .error ("failed to describe spot price history, " ++ err)
  | .ok [] =>
    return .error ("no spot price history found for instance type " ++ instanceType ++
      " in region " ++ region)
  | .ok (first :: _) =>
    let price ← deref first.SpotPrice
    return .ok price

/-- The run request `LaunchOnDemandInstance` builds. -/
def runInput (r : AWSClient) (label registrationToken : String) (orgRunner : Bool) :
    RunInstancesInput :=
  let runInput : RunInstancesInput :=
    { ImageId := some r.Ec2.config.EC2ImageID
      InstanceType := r.Ec2.config.EC2InstanceType
      MinCount := some 1
      MaxCount := some 1
      SubnetId := some r.Ec2.config.SubnetID
      SecurityGroupIds := [r.Ec2.config.SecurityGroupID]
      TagSpecifications :=
        [{ ResourceType := ResourceTypeInstance, Tags := r.Ec2.config.AWSResourceTags }]
      UserData := some (prepareUserData r label registrationToken orgRunner)
      IamInstanceProfile := none }
  if r.Ec2.config.IamInstanceRole ≠ "" then
    { runInput with IamInstanceProfile := some { Name := some r.Ec2.config.IamInstanceRole } }
  else runInput

/-- `LaunchOnDemandInstance`: one run request, then the wait for the running
state (6 minutes). -/
def LaunchOnDemandInstance (r : AWSClient) (label registrationToken : String)
    (orgRunner : Bool) : Prog (Except Error String) := do
  let result ← perform (.RunInstances (runInput r label registrationToken orgRunner))
  match result with
  | .error err => return .error ("failed to launch EC2 instance: " ++ err)
  | .ok [] => return .error "no instance ID found for on-demand instance"
  | .ok (first :: _) =>
    let instanceID ← deref first.InstanceId
    let err ← perform (.InstanceRunningWait [instanceID] (6 * 60))
    match err with
    | some err => return .error ("error waiting for instance to be running: " ++ err)
    | none => return .ok instanceID

/-- The spot request `LaunchSpotInstance` builds for a price. -/
def spotInput (r : AWSClient) (maxPrice label registrationToken : String) (orgRunner : Bool) :
    RequestSpotInstancesInput :=
  let spec : RequestSpotLaunchSpecification :=
    { ImageId := some r.Ec2.config.EC2ImageID
      InstanceType := r.Ec2.config.EC2InstanceType
      SubnetId := some r.Ec2.config.SubnetID
      SecurityGroupIds := [r.Ec2.config.SecurityGroupID]
      UserData := some (prepareUserData r label registrationToken orgRunner)
      IamInstanceProfile := none }
  let spec : RequestSpotLaunchSpecification :=
    if r.Ec2.config.IamInstanceRole ≠ "" then
      { spec with IamInstanceProfile := some { Name := some r.Ec2.config.IamInstanceRole } }
    else spec
  { SpotPrice := some maxPrice
    InstanceCount := some 1
    LaunchSpecification := some spec
    TagSpecifications :=
      if r.Ec2.config.AWSResourceTags.length > 0 then
        [{ ResourceType := ResourceTypeSpotInstancesRequest
           Tags := r.Ec2.config.AWSResourceTags }]
      else []
    RequestType := SpotInstanceTypeOneTime }

/-- `LaunchSpotInstance`: price lookup, spot request, fulfilment wait (6
minutes); when the wait fails, the on-demand launch in the modes `BestEffort`
and `MaxPerformance`, an error otherwise. -/
def LaunchSpotInstance (r : AWSClient) (label registrationToken : String) (orgRunner : Bool) :
    Prog (Except Error String) := do
  let price ← FetchSpotPrice r r.Ec2.config.Spot.Region r.Ec2.config.EC2InstanceType
  match price with
  | .error err => return .error err
  | .ok maxPrice =>
    let spotResult ←
      perform (.RequestSpotInstances (spotInput r maxPrice label registrationToken orgRunner))
    match spotResult with
    | .error err => return .error ("failed to request spot instance: " ++ err)
    | .ok [] => return .error "no spot instance requests returned"
    | .ok (first :: _) =>
      let spotRequestID ← deref first.SpotInstanceRequestId
      let err ← perform (.SpotInstanceRequestFulfilledWait [spotRequestID] (6 * 60))
      match err with
      | some err =>
        if r.Ec2.config.Spot.ProvisioningMode = ProvisioningModeBestEffort ∨
            r.Ec2.config.Spot.ProvisioningMode = ProvisioningModeMaxPerformance then
          LaunchOnDemandInstance r label registrationToken orgRunner
        else
          return .error ("error waiting for spot instance request to be fulfilled: " ++ err)
      | none =>
        let describeResult ← perform (.DescribeSpotInstanceRequests [spotRequestID])
        match describeResult with
        | .error err => return .error ("failed to describe spot instance request: " ++ err)
        | .ok ({ InstanceId := some instanceId, .. } :: _) => return .ok instanceId
        | .ok _ => return .error "no instance ID found for spot instance"

/-- `LaunchInstance`: the dispatch on the provisioning mode. -/
def LaunchInstance (r : AWSClient) (label registrationToken : String) (orgRunner : Bool) :
    Prog (Except Error String) :=
  if r.Ec2.config.Spot.ProvisioningMode = ProvisioningModeNone then
    LaunchOnDemandInstance r label registrationToken orgRunner
  else if r.Ec2.config.Spot.ProvisioningMode = ProvisioningModeSpotOnly then
    LaunchSpotInstance r label registrationToken orgRunner
  else
    return .error ("unknown provisioning mode: " ++ r.Ec2.config.Spot.ProvisioningMode)

/-- `WaitForState`: the wait for the instance status checks (5 minutes). -/
def WaitForState (_r : AWSClient) (instanceID : String) : Prog (Option Error) := do
  let err ← perform (.InstanceStatusOkWait [instanceID] (5 * 60))
  match err with
  | some err => return some ("error waiting for instance " ++ err)
  | none => return none

/-- `TerminateInstance`: the error of the SDK call, unchanged. -/
def TerminateInstance (_r : AWSClient) (instanceID : String) : Prog (Option Error) := do
  let err ← perform (.TerminateInstances [instanceID])
  return err

/-! ## `src/github.go` -/

structure Action where
  RegistrationToken : Option RegistrationToken
  OrgRunner : Bool
deriving DecidableEq, Repr

structure GitHubClient where
  Token : String
  Repo : String
  Owner : String
  Action : Action
deriving DecidableEq, Repr

/-- `NewGithubClient`; `repository` is the value of the environment variable
`GITHUB_REPOSITORY`. -/
def NewGithubClient (config : GithubRunnerConfig) (repository : String) :
    Except Error GitHubClient :=
  match parseRepositoryURL repository with
  | .error err => .error err
  | .ok (owner, repo) =>
    .ok { Token := config.GitHubToken
          Owner := owner
          Repo := repo
          Action := { RegistrationToken := none, OrgRunner := config.GitHubOrgRunner } }

/-- The `for range` loop of `WaitForRunnerRegistered`: is there an entry with
this name whose status is "online"? -/
def hasOnline (label : String) : List GhRunner → Bool
  | [] => false
  | runner :: rest =>
    if runner.GetName = label ∧ runner.GetStatus = "online" then true
    else hasOnline label rest

/-- `WaitForRunnerRegistered`.  Each round of the `for` loop is one `select`;
`polls` bounds the number of ticks the 10-second ticker can deliver before the
5-minute timer is due, after which only the timer or the context can fire. -/
def WaitForRunnerRegistered (r : GitHubClient) (label : String) : Nat → Prog (Option Error)
  | 0 => do
    let fired ← perform .Select
    match fired with
    | .ctxDone err => return some err
    | _ => return some "timeout waiting for runner to register"
  | polls + 1 => do
    let fired ← perform .Select
    match fired with
    | .ctxDone err => return some err
    | .timeout => return some "timeout waiting for runner to register"
    | .tick =>
      let listed ← perform (.ListRunners r.Owner r.Repo)
      match listed with
      | .error err => return some err
      | .ok runners =>
        if hasOnline label runners then return none
        else WaitForRunnerRegistered r label polls

/-- The number of ticks of a 10-second ticker within 5 minutes. -/
def maxPolls : Nat := 5 * 60 / 10

/-- `CreateGitHubRegistrationToken`. -/
def CreateGitHubRegistrationToken (r : GitHubClient) (_githubRunner : String) :
    Prog (Except Error RegistrationToken) := do
  let res ←
    if r.Action.OrgRunner then perform (.CreateOrganizationRegistrationToken r.Owner)
    else perform (.CreateRegistrationToken r.Owner r.Repo)
  match res with
  | .error err => return .error err
  | .ok token => return .ok token

/-- The `for range` loop of `getGithubRunnerID`: the id of the first entry with
this name, `0` when there is none. -/
def firstNamed (label : String) : List GhRunner → Int
  | [] => 0
  | runner :: rest =>
    if runner.GetName = label then runner.GetID else firstNamed label rest

/-- `getGithubRunnerID`: `0` when the listing fails or has no entry of this
name. -/
def getGithubRunnerID (r : GitHubClient) (label : String) : Prog Int := do
  let listed ← perform (.ListRunners r.Owner r.Repo)
  match listed with
  | .error _ => return 0
  | .ok runners => return firstNamed label runners

/-- `RemoveGithubRunner`. -/
def RemoveGithubRunner (r : GitHubClient) (label : String) : Prog (Option Error) := do
  let runnerID ← getGithubRunnerID r label
  if runnerID = 0 then return some "runner not found"
  else
    let err ← perform (.RemoveRunner r.Owner r.Repo runnerID)
    match err with
    | some err => return some err
    | none => return none

/-! ## Goroutines and the error channel (`src/main.go`)

`StartRunner` and `StopRunner` spawn one goroutine per task:
`if err := task(); err != nil { errChan <- err; cancel() }`.
A goroutine advances by atomic steps: one call of its task, the send, the
cancel.  `errChan` has capacity 2, so a send never blocks.  Only non-nil errors
are sent, so the spawning function returns the first error sent, or `nil` once
both goroutines are done and the channel is closed empty.  Its deferred
`cancel()` runs after the first send at the earliest, where the sender's own
`cancel()` can run as well, so only the goroutines' cancels are recorded.  A
`Report` describes the run with both goroutines at their end. -/

inductive Goroutine where
  | running (task : Prog (Option Error))
  | sending (err : Error)
  | cancelling (err : Error)
  | done (result : Option Error)

/-- The joint state of the two goroutines. -/
structure Joined where
  trace : List Call
  errChan : List Error
  first : Goroutine
  second : Goroutine
  abort : Option Abort

/-- One atomic step of a goroutine: the new goroutine state, trace and channel
content, and the abort when the task panics or exits. -/
def Goroutine.step (w : World) (g : Goroutine) (t : List Call) (ch : List Error) :
    Goroutine × List Call × List Error × Option Abort :=
  match g with
  | .running (.ret none) => (.done none, t, ch, none)
  | .running (.ret (some err)) => (.sending err, t, ch, none)
  | .running .nilDeref => (g, t, ch, some .nilDeref)
  | .running (.fatal msg) => (g, t, ch, some (.fatal msg))
  | .running (.call c k) => (.running (k (w.respond t c)), t ++ [c], ch, none)
  | .sending err => (.cancelling err, t, ch ++ [err], none)
  | .cancelling err => (.done (some err), t ++ [.Cancel], ch, none)
  | .done _ => (g, t, ch, none)

/-- Run a goroutine to its end without interruption. -/
def Goroutine.finish (w : World) (g : Goroutine) (t : List Call) (ch : List Error) :
    Goroutine × List Call × List Error × Option Abort :=
  match g with
  | .running task =>
    match task.run w t with
    | (.returned none, t1) => (.done none, t1, ch, none)
    | (.returned (some err), t1) => (.done (some err), t1 ++ [.Cancel], ch ++ [err], none)
    | (.aborted a, t1) => (g, t1, ch, some a)
  | .sending err => (.done (some err), t ++ [.Cancel], ch ++ [err], none)
  | .cancelling err => (.done (some err), t ++ [.Cancel], ch, none)
  | .done _ => (g, t, ch, none)

/-- Which goroutine takes the next step: `true` the first, `false` the second.
When the list is used up, the first runs to its end, then the second. -/
abbrev Schedule := List Bool

/-- One scheduled step.  After an abort the process is gone. -/
def Joined.step (w : World) (s : Joined) (turn : Bool) : Joined :=
  match s.abort with
  | some _ => s
  | none =>
    if turn then
      match s.first.step w s.trace s.errChan with
      | (g, t, ch, a) => { s with first := g, trace := t, errChan := ch, abort := a }
    else
      match s.second.step w s.trace s.errChan with
      | (g, t, ch, a) => { s with second := g, trace := t, errChan := ch, abort := a }

def Joined.finishFirst (w : World) (s : Joined) : Joined :=
  match s.abort with
  | some _ => s
  | none =>
    match s.first.finish w s.trace s.errChan with
    | (g, t, ch, a) => { s with first := g, trace := t, errChan := ch, abort := a }

def Joined.finishSecond (w : World) (s : Joined) : Joined :=
  match s.abort with
  | some _ => s
  | none =>
    match s.second.finish w s.trace s.errChan with
    | (g, t, ch, a) => { s with second := g, trace := t, errChan := ch, abort := a }

/-- Both goroutines spawned, the channel empty. -/
def Joined.start (t : List Call) (task1 task2 : Prog (Option Error)) : Joined :=
  { trace := t, errChan := [], first := .running task1, second := .running task2,
    abort := none }

/-- Both goroutines, run to the end (`wg.Wait()`) under a schedule. -/
def joinTasks (w : World) (sched : Schedule) (t : List Call)
    (task1 task2 : Prog (Option Error)) : Joined :=
  ((sched.foldl (Joined.step w) (Joined.start t task1 task2)).finishFirst w).finishSecond w

/-- What the spawning function returns: `for err := range errChan` returns the
first error received, and `nil` when the channel is closed empty. -/
def Joined.outcome (s : Joined) : Outcome (Option Error) :=
  match s.abort with
  | some a => .aborted a
  | none => .returned s.errChan.head?

/-- What a goroutine's task returned, once the goroutine is done. -/
def Goroutine.result : Goroutine → Option (Option Error)
  | .done r => some r
  | _ => none

/-! ## `src/main.go`: the runner -/

structure Runner where
  ec2Client : AWSClient
  githubClient : GitHubClient
  config : RunnerConfig
  instanceID : Option String
  runnerLabel : String
deriving DecidableEq, Repr

/-- `NewRunner`; `repository` is the value of `GITHUB_REPOSITORY`. -/
def NewRunner (config : RunnerConfig) (repository : String) : Except Error Runner :=
  let awsClient := NewAWSClient config.EC2RunnerConfig
  match NewGithubClient config.GithubRunnerConfig repository with
  | .error err => .error ("failed to create GitHub client: " ++ err)
  | .ok githubClient =>
    .ok { ec2Client := awsClient
          githubClient := githubClient
          config := config
          instanceID := none
          runnerLabel := "" }

/-- What a run of `StartRunner` or `StopRunner` leaves behind: what it returned
(or how the process stopped), the runner, every call made, and, when the two
goroutines were spawned, their final states (`done r` when the task returned
`r`) and what was sent on `errChan`, in order. -/
structure Report where
  outcome : Outcome (Option Error)
  runner : Runner
  trace : List Call
  tasks : Option (Goroutine × Goroutine)
  errChan : List Error

/-- Lines 75-87 of `StartRunner`: token, launch and the assignments to the
runner.  Returns the runner and the launch error, if any. -/
def StartRunner.launch (r : Runner) : Prog (Runner × Option Error) := do
  let token ← CreateGitHubRegistrationToken r.githubClient r.config.GithubRunnerConfig.GitHubTokenType
  match token with
  | .error err => .fatal ("Failed to create GitHub registration token: " ++ err)
  | .ok registrationToken =>
    let r1 : Runner :=
      { r with githubClient :=
          { r.githubClient with Action :=
              { r.githubClient.Action with RegistrationToken := some registrationToken } } }
    let tokenString ← deref registrationToken.Token
    let launched ← LaunchInstance r1.ec2Client r1.runnerLabel tokenString r1.githubClient.Action.OrgRunner
    match launched with
    | .error err =>
      return ({ r1 with instanceID := none }, some ("failed to launch instance: " ++ err))
    | .ok instanceID => return ({ r1 with instanceID := some instanceID }, none)

/-- `StartRunner`: token and launch, then the two watchers as goroutines. -/
def StartRunner (w : World) (sched : Schedule) (r : Runner) (t : List Call) : Report :=
  match (StartRunner.launch r).run w t with
  | (.aborted a, t1) =>
    { outcome := .aborted a, runner := r, trace := t1, tasks := none, errChan := [] }
  | (.returned (r1, some err), t1) =>
    { outcome := .returned (some err), runner := r1, trace := t1, tasks := none, errChan := [] }
  | (.returned (r1, none), t1) =>
    match r1.instanceID with
    | none =>
      { outcome := .aborted .nilDeref, runner := r1, trace := t1, tasks := none, errChan := [] }
    | some instanceID =>
      let s := joinTasks w sched t1 (WaitForState r1.ec2Client instanceID)
        (WaitForRunnerRegistered r1.githubClient r1.runnerLabel maxPolls)
      { outcome := s.outcome, runner := r1, trace := s.trace, tasks := some (s.first, s.second),
        errChan := s.errChan }

/-- The first task of `StopRunner`. -/
def StopRunner.terminate (r : Runner) (instanceID : String) : Prog (Option Error) := do
  let err ← TerminateInstance r.ec2Client instanceID
  match err with
  | some err => return some ("failed to terminate instance: " ++ err)
  | none => return none

/-- The second task of `StopRunner`. -/
def StopRunner.deregister (r : Runner) : Prog (Option Error) := do
  let err ← RemoveGithubRunner r.githubClient r.runnerLabel
  match err with
  | some err => return some err
  | none => return none

/-- `StopRunner`. -/
def StopRunner (w : World) (sched : Schedule) (r : Runner) (t : List Call) : Report :=
  match r.instanceID with
  | none =>
    { outcome := .returned (some "no instance to terminate"), runner := r, trace := t,
      tasks := none, errChan := [] }
  | some instanceID =>
    let s := joinTasks w sched t (StopRunner.terminate r instanceID) (StopRunner.deregister r)
    { outcome := s.outcome, runner := r, trace := s.trace, tasks := some (s.first, s.second),
      errChan := s.errChan }

/-! ## Predicates on programs and goroutines -/

/-- In the world `w` the program never panics or exits, and whatever it
returns satisfies `P`: at each call, every answer `w` can give is followed. -/
def Prog.Returns {α : Type} (w : World) (P : α → Prop) : Prog α → Prop
  | .ret a => P a
  | .nilDeref => False
  | .fatal _ => False
  | .call c k => ∀ t, Returns w P (k (w.respond t c))

/-- Whatever the program returns, if it returns, satisfies `P`. -/
def Prog.Ensures {α : Type} (P : α → Prop) : Prog α → Prop
  | .ret a => P a
  | .nilDeref => True
  | .fatal _ => True
  | .call _ k => ∀ r, Ensures P (k r)

/-- The goroutine's task cannot abort and its result satisfies `P`. -/
def Goroutine.Inv (w : World) (P : Option Error → Prop) : Goroutine → Prop
  | .running task => task.Returns w P
  | .sending err => P (some err)
  | .cancelling err => P (some err)
  | .done r => P r

/-- What the goroutine has put on the error channel so far. -/
def Goroutine.sent : Goroutine → List Error
  | .cancelling err => [err]
  | .done (some err) => [err]
  | _ => []

/-- How one step changes the channel: nothing is sent, or the goroutine sends
its one error. -/
def SendStep (g g1 : Goroutine) (ch ch1 : List Error) : Prop :=
  (ch1 = ch ∧ g1.sent = g.sent) ∨ (g.sent = [] ∧ ∃ e, g1.sent = [e] ∧ ch1 = ch ++ [e])

/-- The invariant of the joint run: no abort, each goroutine within its
invariant, and the channel holds exactly what the two have sent, in one of the
two orders. -/
def Joined.Inv (w : World) (P1 P2 : Option Error → Prop) (s : Joined) : Prop :=
  s.abort = none ∧ s.first.Inv w P1 ∧ s.second.Inv w P2 ∧
    (s.errChan = s.first.sent ++ s.second.sent ∨ s.errChan = s.second.sent ++ s.first.sent)

/-! ## Concrete collaborators and runners, for evaluation -/

/-- A collaborator for which every call succeeds with an empty answer; the
`select` answers that the timer fired. -/
def quietAnswer : (c : Call) → c.Resp
  | .DescribeSpotPriceHistory _ => .ok []
  | .RequestSpotInstances _ => .ok []
  | .SpotInstanceRequestFulfilledWait _ _ => none
  | .DescribeSpotInstanceRequests _ => .ok []
  | .RunInstances _ => .ok []
  | .InstanceRunningWait _ _ => none
  | .InstanceStatusOkWait _ _ => none
  | .TerminateInstances _ => none
  | .CreateOrganizationRegistrationToken _ => .ok { Token := some "tok" }
  | .CreateRegistrationToken _ _ => .ok { Token := some "tok" }
  | .ListRunners _ _ => .ok []
  | .RemoveRunner _ _ _ => none
  | .ListOrganizationRunners _ => .ok []
  | .RemoveOrganizationRunner _ _ => none
  | .Select => .timeout
  | .Cancel => ()

def quietWorld : World := { respond := fun _ c => quietAnswer c }

def sampleEC2Config (mode : String) : EC2RunnerConfig :=
  { EC2ImageID := "ami-1"
    EC2InstanceType := "t3.micro"
    SubnetID := "subnet-1"
    SecurityGroupID := "sg-1"
    IamInstanceRole := ""
    AWSResourceTags := []
    RepositoryURL := "acme/app"
    SpotInstance := true
    Spot := { ProvisioningMode := mode, Region := "eu-west-1" } }

def sampleGitHubClient (orgRunner : Bool) : GitHubClient :=
  { Token := "ghp", Repo := "app", Owner := "acme",
    Action := { RegistrationToken := none, OrgRunner := orgRunner } }

/-- A runner as `main` leaves it in mode "start", before or after the launch. -/
def sampleRunner (mode : String) (instanceID : Option String) : Runner :=
  { ec2Client := NewAWSClient (sampleEC2Config mode)
    githubClient := sampleGitHubClient false
    config :=
      { Mode := "stop"
        GithubRunnerConfig :=
          { GitHubToken := "ghp", GitHubTokenType := "classic", GitHubOrgRunner := false }
        EC2RunnerConfig := sampleEC2Config mode }
    instanceID := instanceID
    runnerLabel := "ec2-runner-1" }

/-- The agent of `sampleRunner`, registered and online, with id 7. -/
def sampleAgent : GhRunner := { ID := some 7, Name := some "ec2-runner-1", Status := some "online" }

/-- Termination fails; the listing holds no agent. -/
def worldBothFail : World :=
  { respond := fun _ c =>
      match c with
      | .TerminateInstances _ => some "boom"
      | c => quietAnswer c }

/-- Termination fails; the agent is listed and its removal succeeds. -/
def worldTerminateFails : World :=
  { respond := fun _ c =>
      match c with
      | .TerminateInstances _ => some "boom"
      | .ListRunners _ _ => .ok [sampleAgent]
      | c => quietAnswer c }

/-- Termination fails; the Registration Service lists the agent and removes it,
but refuses every request made after the shared context was cancelled, as an
HTTP client does. -/
def worldHonoursCancel : World :=
  { respond := fun t c =>
      match c with
      | .TerminateInstances _ => some "boom"
      | .ListRunners _ _ =>
        if Call.Cancel ∈ t then .error "context canceled" else .ok [sampleAgent]
      | .RemoveRunner _ _ _ => if Call.Cancel ∈ t then some "context canceled" else none
      | c => quietAnswer c }

/-- The listing call fails. -/
def worldListingFails : World :=
  { respond := fun _ c =>
      match c with
      | .ListRunners _ _ => .error "503 service unavailable"
      | c => quietAnswer c }

/-- The price history has one point, the spot request is accepted, its
fulfilment wait fails, and the on-demand launch succeeds. -/
def worldSpotUnfulfilled : World :=
  { respond := fun _ c =>
      match c with
      | .DescribeSpotPriceHistory _ => .ok [{ SpotPrice := some "0.01" }]
      | .RequestSpotInstances _ =>
        .ok [{ SpotInstanceRequestId := some "sir-1", InstanceId := none }]
      | .SpotInstanceRequestFulfilledWait _ _ => some "exceeded max wait time"
      | .RunInstances _ => .ok [{ InstanceId := some "i-9" }]
      | c => quietAnswer c }

/-- The launch succeeds on demand and both watchers report ready at once. -/
def worldReady : World :=
  { respond := fun _ c =>
      match c with
      | .RunInstances _ => .ok [{ InstanceId := some "i-9" }]
      | .Select => .tick
      | .ListRunners _ _ => .ok [sampleAgent]
      | c => quietAnswer c }

/-- Is the call a spot price lookup? -/
def Call.isSpotPriceLookup : Call → Bool
  | .DescribeSpotPriceHistory _ => true
  | _ => false

/-- Is the call a spot request? -/
def Call.isSpotRequest : Call → Bool
  | .RequestSpotInstances _ => true
  | _ => false

/-- Every call the program can make satisfies `P`, whatever the answers. -/
def Prog.Calls {α : Type} (P : Call → Prop) : Prog α → Prop
  | .ret _ => True
  | .nilDeref => True
  | .fatal _ => True
  | .call c k => P c ∧ ∀ r, Calls P (k r)

/-! ## `src/main.go`: the process -/

/-- What a run of the process leaves behind: how it ended (`returned ()` is a
normal exit, `aborted (.fatal msg)` is `log.Fatalf`), every call made, and the
lines written for GitHub Actions. -/
structure Exit where
  outcome : Outcome Unit
  trace : List Call
  output : List String

/-- `main` from the creation of the runner on (lines 221-246).  `config` is the
configuration read from the inputs, `repository` the value of
`GITHUB_REPOSITORY`, and `now` the formatted current time that makes the runner
label. -/
def main (w : World) (sched : Schedule) (config : RunnerConfig) (repository now : String)
    (t : List Call) : Exit :=
  match NewRunner config repository with
  | .error err =>
    { outcome := .aborted (.fatal ("Failed to create runner: " ++ err)), trace := t, output := [] }
  | .ok runner =>
    if config.Mode = "start" then
      let runner := { runner with runnerLabel := "ec2-runner-" ++ now }
      let report := StartRunner w sched runner t
      match report.outcome with
      | .aborted a => { outcome := .aborted a, trace := report.trace, output := [] }
      | .returned (some err) =>
        { outcome := .aborted (.fatal ("Failed to start runner: " ++ err)),
          trace := report.trace, output := [] }
      | .returned none =>
        match report.runner.instanceID with
        | none =>
          { outcome := .aborted .nilDeref, trace := report.trace,
            output := ["::set-output name=label::" ++ report.runner.runnerLabel ++ "\n"] }
        | some instanceID =>
          { outcome := .returned (), trace := report.trace,
            output := ["::set-output name=label::" ++ report.runner.runnerLabel ++ "\n",
              "::set-output name=ec2-instance-id::" ++ instanceID ++ "\n"] }
    else if config.Mode = "stop" then
      let report := StopRunner w sched runner t
      match report.outcome with
      | .aborted a => { outcome := .aborted a, trace := report.trace, output := [] }
      | .returned (some err) =>
        { outcome := .aborted (.fatal ("Failed to stop runner: " ++ err)),
          trace := report.trace, output := [] }
      | .returned none => { outcome := .returned (), trace := report.trace, output := [] }
    else
      { outcome := .aborted (.fatal ("Invalid mode: " ++ config.Mode)), trace := t, output := [] }

end AwsGithubRunner

namespace AwsGithubRunner

/-! ## Execution lemmas -/

@[simp] theorem Prog.pure_eq {α : Type} (a : α) : (pure a : Prog α) = Prog.ret a := rfl

@[simp] theorem Prog.bind_eq {α β : Type} (p : Prog α) (f : α → Prog β) :
    (p >>= f) = p.bind f := rfl

@[simp] theorem Prog.bind_ret {α β : Type} (a : α) (f : α → Prog β) :
    (Prog.ret a).bind f = f a := rfl

@[simp] theorem Prog.bind_call {α β : Type} (c : Call) (k : c.Resp → Prog α) (f : α → Prog β) :
    (Prog.call c k).bind f = Prog.call c (fun r => (k r).bind f) := rfl

@[simp] theorem Prog.bind_nilDeref {α β : Type} (f : α → Prog β) :
    (Prog.nilDeref : Prog α).bind f = Prog.nilDeref := rfl

@[simp] theorem Prog.bind_fatal {α β : Type} (msg : String) (f : α → Prog β) :
    (Prog.fatal msg : Prog α).bind f = Prog.fatal msg := rfl

@[simp] theorem Prog.run_ret {α : Type} (w : World) (a : α) (t : List Call) :
    (Prog.ret a).run w t = (.returned a, t) := rfl

@[simp] theorem Prog.run_call {α : Type} (w : World) (c : Call) (k : c.Resp → Prog α)
    (t : List Call) : (Prog.call c k).run w t = (k (w.respond t c)).run w (t ++ [c]) := rfl

@[simp] theorem Prog.run_nilDeref {α : Type} (w : World) (t : List Call) :
    (Prog.nilDeref : Prog α).run w t = (.aborted .nilDeref, t) := rfl

@[simp] theorem Prog.run_fatal {α : Type} (w : World) (msg : String) (t : List Call) :
    (Prog.fatal msg : Prog α).run w t = (.aborted (.fatal msg), t) := rfl

/-- Running `p` then `f` is running `p` and, when it returns, `f` from there. -/
theorem Prog.run_bind {α β : Type} (w : World) (p : Prog α) (f : α → Prog β) (t : List Call) :
    (p.bind f).run w t =
      match p.run w t with
      | (.returned a, t1) => (f a).run w t1
      | (.aborted x, t1) => (.aborted x, t1) := by
  induction p generalizing t with
  | ret a => rfl
  | nilDeref => rfl
  | fatal msg => rfl
  | call c k ih => simp [ih]

/-- The trace only grows. -/
theorem Prog.run_trace_extends {α : Type} (w : World) (p : Prog α) (t : List Call) :
    ∃ rest, (p.run w t).2 = t ++ rest := by
  induction p generalizing t with
  | ret a => exact ⟨[], by simp⟩
  | nilDeref => exact ⟨[], by simp⟩
  | fatal msg => exact ⟨[], by simp⟩
  | call c k ih =>
    obtain ⟨rest, h⟩ := ih (w.respond t c) (t ++ [c])
    exact ⟨c :: rest, by simp [h]⟩

/-! ## The two goroutines and the error channel -/

/-- A program that `Returns P` returns, with a value satisfying `P`. -/
theorem Prog.returns_run {α : Type} {P : α → Prop} (w : World) {p : Prog α}
    (h : p.Returns w P) (t : List Call) : ∃ a t1, p.run w t = (.returned a, t1) ∧ P a := by
  induction p generalizing t with
  | ret a => exact ⟨a, t, rfl, h⟩
  | nilDeref => exact h.elim
  | fatal msg => exact h.elim
  | call c k ih => exact ih (w.respond t c) (h t) (t ++ [c])

theorem Goroutine.step_keeps_inv {P : Option Error → Prop} (w : World) (g : Goroutine)
    (t : List Call) (ch : List Error) (h : g.Inv w P) :
    ((g.step w t ch).2.2.2 = none) ∧ (g.step w t ch).1.Inv w P ∧
      SendStep g (g.step w t ch).1 ch (g.step w t ch).2.2.1 := by
  cases g with
  | running task =>
    cases task with
    | ret a =>
      cases a with
      | none => exact ⟨rfl, h, Or.inl ⟨rfl, rfl⟩⟩
      | some e => exact ⟨rfl, h, Or.inl ⟨rfl, rfl⟩⟩
    | nilDeref => exact h.elim
    | fatal msg => exact h.elim
    | call c k => exact ⟨rfl, h t, Or.inl ⟨rfl, rfl⟩⟩
  | sending e => exact ⟨rfl, h, Or.inr ⟨rfl, e, rfl, rfl⟩⟩
  | cancelling e => exact ⟨rfl, h, Or.inl ⟨rfl, rfl⟩⟩
  | done r => exact ⟨rfl, h, Or.inl ⟨rfl, rfl⟩⟩

theorem Goroutine.finish_inv {P : Option Error → Prop} (w : World) (g : Goroutine)
    (t : List Call) (ch : List Error) (h : g.Inv w P) :
    ((g.finish w t ch).2.2.2 = none) ∧ (∃ r, (g.finish w t ch).1 = .done r ∧ P r) ∧
      SendStep g (g.finish w t ch).1 ch (g.finish w t ch).2.2.1 := by
  cases g with
  | running task =>
    obtain ⟨a, t1, hrun, ha⟩ := Prog.returns_run w h t
    cases a with
    | none =>
      have e : (Goroutine.running task).finish w t ch = (.done none, t1, ch, none) := by
        simp [Goroutine.finish, hrun]
      rw [e]
      exact ⟨rfl, ⟨none, rfl, ha⟩, Or.inl ⟨rfl, rfl⟩⟩
    | some e =>
      have e : (Goroutine.running task).finish w t ch =
          (.done (some e), t1 ++ [.Cancel], ch ++ [e], none) := by
        simp [Goroutine.finish, hrun]
      rw [e]
      exact ⟨rfl, ⟨some _, rfl, ha⟩, Or.inr ⟨rfl, _, rfl, rfl⟩⟩
  | sending e => exact ⟨rfl, ⟨some e, rfl, h⟩, Or.inr ⟨rfl, e, rfl, rfl⟩⟩
  | cancelling e => exact ⟨rfl, ⟨some e, rfl, h⟩, Or.inl ⟨rfl, rfl⟩⟩
  | done r => exact ⟨rfl, ⟨r, rfl, h⟩, Or.inl ⟨rfl, rfl⟩⟩

/-- A goroutine sends at most one error. -/
theorem Goroutine.sent_length (g : Goroutine) : g.sent.length ≤ 1 := by
  cases g with
  | running task => simp [Goroutine.sent]
  | sending e => simp [Goroutine.sent]
  | cancelling e => simp [Goroutine.sent]
  | done r => cases r <;> simp [Goroutine.sent]

theorem SendStep.chan_left {g g1 other : Goroutine} {ch ch1 : List Error}
    (h : SendStep g g1 ch ch1)
    (hch : ch = g.sent ++ other.sent ∨ ch = other.sent ++ g.sent) :
    ch1 = g1.sent ++ other.sent ∨ ch1 = other.sent ++ g1.sent := by
  rcases h with ⟨h1, h2⟩ | ⟨h1, e, h2, h3⟩
  · rw [h1, h2]; exact hch
  · right
    rw [h3, h2]
    rcases hch with hch | hch <;> simp [hch, h1]

theorem Joined.step_preserves_inv {P1 P2 : Option Error → Prop} (w : World) (s : Joined)
    (turn : Bool)
    (h : s.Inv w P1 P2) : (s.step w turn).Inv w P1 P2 := by
  obtain ⟨ha, h1, h2, hch⟩ := h
  cases turn with
  | true =>
    obtain ⟨hn, hi, hs⟩ := Goroutine.step_keeps_inv w s.first s.trace s.errChan h1
    simp only [Joined.step, ha, if_true]
    exact ⟨hn, hi, h2, hs.chan_left hch⟩
  | false =>
    obtain ⟨hn, hi, hs⟩ := Goroutine.step_keeps_inv w s.second s.trace s.errChan h2
    simp only [Joined.step, ha]
    exact ⟨hn, h1, hi, (hs.chan_left hch.symm).symm⟩

theorem Joined.foldl_inv {P1 P2 : Option Error → Prop} (w : World) (sched : Schedule)
    (s : Joined) (h : s.Inv w P1 P2) : (sched.foldl (Joined.step w) s).Inv w P1 P2 := by
  induction sched generalizing s with
  | nil => exact h
  | cons turn rest ih => exact ih _ (Joined.step_preserves_inv w s turn h)

/-- The joint run of two tasks that cannot abort: both goroutines end, each
with a result its task can return, and the channel holds the errors among the
two results, in one of the two orders. -/
theorem Joined.finishFirst_inv {P1 P2 : Option Error → Prop} (w : World) (s : Joined)
    (h : s.Inv w P1 P2) :
    (s.finishFirst w).Inv w P1 P2 ∧ ∃ r, (s.finishFirst w).first = .done r := by
  obtain ⟨ha, h1, h2, hch⟩ := h
  obtain ⟨hn, ⟨r, hd, hp⟩, hs⟩ := Goroutine.finish_inv w s.first s.trace s.errChan h1
  simp only [Joined.finishFirst, ha]
  refine ⟨⟨hn, ?_, h2, hs.chan_left hch⟩, r, hd⟩
  show Goroutine.Inv w P1 (s.first.finish w s.trace s.errChan).1
  rw [hd]; exact hp

theorem Joined.finishSecond_inv {P1 P2 : Option Error → Prop} (w : World) (s : Joined)
    (h : s.Inv w P1 P2) :
    (s.finishSecond w).Inv w P1 P2 ∧ (s.finishSecond w).first = s.first ∧
      ∃ r, (s.finishSecond w).second = .done r := by
  obtain ⟨ha, h1, h2, hch⟩ := h
  obtain ⟨hn, ⟨r, hd, hp⟩, hs⟩ := Goroutine.finish_inv w s.second s.trace s.errChan h2
  simp only [Joined.finishSecond, ha]
  refine ⟨⟨hn, h1, ?_, (hs.chan_left hch.symm).symm⟩, trivial, r, hd⟩
  show Goroutine.Inv w P2 (s.second.finish w s.trace s.errChan).1
  rw [hd]; exact hp

theorem Goroutine.sent_done (r : Option Error) : (Goroutine.done r).sent = r.toList := by
  cases r <;> rfl

/-- The joint run of two tasks that cannot abort: both goroutines end, each
with a result its task can return, and the channel holds the errors among the
two results, in one of the two orders. -/
theorem joinTasks_spec {P1 P2 : Option Error → Prop} (w : World) (sched : Schedule)
    (t : List Call) (task1 task2 : Prog (Option Error))
    (h1 : task1.Returns w P1) (h2 : task2.Returns w P2) :
    ∃ r1 r2, (joinTasks w sched t task1 task2).first = .done r1 ∧
      (joinTasks w sched t task1 task2).second = .done r2 ∧
      (joinTasks w sched t task1 task2).abort = none ∧ P1 r1 ∧ P2 r2 ∧
      ((joinTasks w sched t task1 task2).errChan = r1.toList ++ r2.toList ∨
        (joinTasks w sched t task1 task2).errChan = r2.toList ++ r1.toList) := by
  have h0 : (Joined.start t task1 task2).Inv w P1 P2 := ⟨rfl, h1, h2, Or.inl rfl⟩
  have hf := Joined.foldl_inv w sched _ h0
  obtain ⟨hi1, r1, hd1⟩ := Joined.finishFirst_inv w _ hf
  obtain ⟨hi2, hfirst, r2, hd2⟩ := Joined.finishSecond_inv w _ hi1
  obtain ⟨ha, hp1, hp2, hch⟩ := hi2
  rw [hfirst] at hp1 hch
  rw [hd1] at hp1 hch
  rw [hd2] at hp2 hch
  rw [Goroutine.sent_done, Goroutine.sent_done] at hch
  exact ⟨r1, r2, hfirst.trans hd1, hd2, ha, hp1, hp2, hch⟩

/-- What the spawning function returns after the joint run of two tasks that
cannot abort. -/
theorem joinTasks_outcome {P1 P2 : Option Error → Prop} (w : World) (sched : Schedule)
    (t : List Call) (task1 task2 : Prog (Option Error))
    (h1 : task1.Returns w P1) (h2 : task2.Returns w P2) :
    ∃ r1 r2, (joinTasks w sched t task1 task2).first = .done r1 ∧
      (joinTasks w sched t task1 task2).second = .done r2 ∧ P1 r1 ∧ P2 r2 ∧
      ((joinTasks w sched t task1 task2).errChan = r1.toList ++ r2.toList ∨
        (joinTasks w sched t task1 task2).errChan = r2.toList ++ r1.toList) ∧
      (joinTasks w sched t task1 task2).outcome =
        .returned (joinTasks w sched t task1 task2).errChan.head? ∧
      ((joinTasks w sched t task1 task2).outcome = .returned none ↔ r1 = none ∧ r2 = none) ∧
      (r2 = none → (joinTasks w sched t task1 task2).outcome = .returned r1) ∧
      (r1 = none → (joinTasks w sched t task1 task2).outcome = .returned r2) ∧
      ((joinTasks w sched t task1 task2).outcome = .returned r1 ∨
        (joinTasks w sched t task1 task2).outcome = .returned r2) := by
  obtain ⟨r1, r2, hd1, hd2, ha, hp1, hp2, hch⟩ := joinTasks_spec w sched t task1 task2 h1 h2
  have ho : (joinTasks w sched t task1 task2).outcome =
      .returned (joinTasks w sched t task1 task2).errChan.head? := by
    simp [Joined.outcome, ha]
  refine ⟨r1, r2, hd1, hd2, hp1, hp2, hch, ho, ?_, ?_, ?_, ?_⟩ <;> rw [ho] <;>
    rcases hch with hch | hch <;> rw [hch] <;> cases r1 <;> cases r2 <;> simp

theorem StopRunner.terminate_returns (w : World) (r : Runner) (instanceID : String) :
    (StopRunner.terminate r instanceID).Returns w (fun res => ∃ t1,
      res = (w.respond t1 (.TerminateInstances [instanceID])).map
        (fun err => "failed to terminate instance: " ++ err)) := by
  simp only [StopRunner.terminate, TerminateInstance, perform, Prog.bind_eq, Prog.bind_call,
    Prog.bind_ret, Prog.pure_eq, Prog.Returns]
  intro t
  cases h : w.respond t (.TerminateInstances [instanceID]) with
  | none => exact ⟨t, by rw [h]; rfl⟩
  | some err => exact ⟨t, by rw [h]; rfl⟩

theorem Prog.returns_bind {α β : Type} {w : World} {Q : α → Prop} {P : β → Prop}
    {p : Prog α} {f : α → Prog β} (hp : p.Returns w Q)
    (hf : ∀ a, Q a → (f a).Returns w P) : (p.bind f).Returns w P := by
  induction p with
  | ret a => exact hf a hp
  | nilDeref => exact hp.elim
  | fatal msg => exact hp.elim
  | call c k ih => exact fun t => ih _ (hp t)

theorem Prog.returns_mono {α : Type} {w : World} {Q P : α → Prop} {p : Prog α}
    (hp : p.Returns w Q) (h : ∀ a, Q a → P a) : p.Returns w P := by
  induction p with
  | ret a => exact h a hp
  | nilDeref => exact hp.elim
  | fatal msg => exact hp.elim
  | call c k ih => exact fun t => ih _ (hp t)

theorem getGithubRunnerID_returns (w : World) (r : GitHubClient) (label : String) :
    (getGithubRunnerID r label).Returns w (fun _ => True) := by
  simp only [getGithubRunnerID, perform, Prog.bind_eq, Prog.bind_call, Prog.bind_ret,
    Prog.pure_eq, Prog.Returns]
  intro t
  cases w.respond t (.ListRunners r.Owner r.Repo) <;> trivial

/-- `RemoveGithubRunner` returns the not-found error or what the removal call
answered. -/
theorem RemoveGithubRunner_returns (w : World) (r : GitHubClient) (label : String) :
    (RemoveGithubRunner r label).Returns w (fun res => res = some "runner not found" ∨
      ∃ t1 runnerID, res = w.respond t1 (.RemoveRunner r.Owner r.Repo runnerID)) := by
  unfold RemoveGithubRunner
  refine Prog.returns_bind (getGithubRunnerID_returns w r label) (fun runnerID _ => ?_)
  by_cases h0 : runnerID = 0
  · simp [h0, Prog.Returns]
  · simp only [h0, if_false, perform, Prog.bind_eq, Prog.bind_call, Prog.bind_ret,
      Prog.pure_eq, Prog.Returns]
    intro t1
    cases h : w.respond t1 (.RemoveRunner r.Owner r.Repo runnerID) with
    | none => exact Or.inr ⟨t1, runnerID, by rw [h]⟩
    | some err => exact Or.inr ⟨t1, runnerID, by rw [h]⟩

theorem StopRunner.deregister_returns (w : World) (r : Runner) :
    (StopRunner.deregister r).Returns w (fun res => res = some "runner not found" ∨
      ∃ t1 runnerID,
        res = w.respond t1 (.RemoveRunner r.githubClient.Owner r.githubClient.Repo runnerID)) := by
  unfold StopRunner.deregister
  refine Prog.returns_bind (RemoveGithubRunner_returns w r.githubClient r.runnerLabel)
    (fun res hres => ?_)
  cases res with
  | none => exact hres
  | some err => exact hres

theorem Prog.ensures_run {α : Type} {P : α → Prop} {w : World} {p : Prog α}
    (hp : p.Ensures P) {t t1 : List Call} {a : α} (h : p.run w t = (.returned a, t1)) :
    P a := by
  induction p generalizing t with
  | ret b =>
    simp only [Prog.run_ret, Prod.mk.injEq, Outcome.returned.injEq] at h
    exact h.1 ▸ hp
  | nilDeref => simp at h
  | fatal msg => simp at h
  | call c k ih => exact ih _ (hp _) h

theorem Prog.ensures_bind {α β : Type} {Q : α → Prop} {P : β → Prop}
    {p : Prog α} {f : α → Prog β} (hp : p.Ensures Q)
    (hf : ∀ a, Q a → (f a).Ensures P) : (p.bind f).Ensures P := by
  induction p with
  | ret a => exact hf a hp
  | nilDeref => trivial
  | fatal msg => trivial
  | call c k ih => exact fun r => ih _ (hp r)

theorem Prog.ensures_true {α : Type} (p : Prog α) : p.Ensures (fun _ => True) := by
  induction p with
  | ret a => trivial
  | nilDeref => trivial
  | fatal msg => trivial
  | call c k ih => exact fun r => ih r

/-- When the first part of `StartRunner` returns without a launch error, the
runner holds an instance id. -/
theorem StartRunner.launch_instanceID (w : World) (r r1 : Runner) (t t1 : List Call)
    (h : (StartRunner.launch r).run w t = (.returned (r1, none), t1)) :
    ∃ instanceID, r1.instanceID = some instanceID := by
  have he : (StartRunner.launch r).Ensures
      (fun res => res.2 = none → ∃ instanceID, res.1.instanceID = some instanceID) := by
    unfold StartRunner.launch
    refine Prog.ensures_bind (Prog.ensures_true _) (fun token _ => ?_)
    cases token with
    | error err => trivial
    | ok registrationToken =>
      refine Prog.ensures_bind (Prog.ensures_true _) (fun tokenString _ => ?_)
      refine Prog.ensures_bind (Prog.ensures_true _) (fun launched _ => ?_)
      cases launched with
      | error err => simp [Prog.Ensures]
      | ok instanceID => simp [Prog.Ensures]
  exact Prog.ensures_run he h rfl

theorem WaitForState_returns (w : World) (r : AWSClient) (instanceID : String) :
    (WaitForState r instanceID).Returns w (fun res => ∃ t1,
      res = (w.respond t1 (.InstanceStatusOkWait [instanceID] (5 * 60))).map
        (fun err => "error waiting for instance " ++ err)) := by
  simp only [WaitForState, perform, Prog.bind_eq, Prog.bind_call, Prog.bind_ret, Prog.pure_eq,
    Prog.Returns]
  intro t
  cases h : w.respond t (.InstanceStatusOkWait [instanceID] (5 * 60)) with
  | none => exact ⟨t, by rw [h]; rfl⟩
  | some err => exact ⟨t, by rw [h]; rfl⟩

theorem WaitForRunnerRegistered_returns (w : World) (r : GitHubClient) (label : String)
    (polls : Nat) : (WaitForRunnerRegistered r label polls).Returns w (fun _ => True) := by
  induction polls with
  | zero =>
    simp only [WaitForRunnerRegistered, perform, Prog.bind_eq, Prog.bind_call, Prog.bind_ret,
      Prog.pure_eq, Prog.Returns]
    intro t
    cases w.respond t .Select <;> trivial
  | succ n ih =>
    simp only [WaitForRunnerRegistered, perform, Prog.bind_eq, Prog.bind_call, Prog.bind_ret,
      Prog.pure_eq, Prog.Returns]
    intro t
    cases w.respond t .Select with
    | ctxDone err => trivial
    | timeout => trivial
    | tick =>
      simp only [Prog.bind_call, Prog.Returns, Prog.bind_ret]
      intro t1
      cases w.respond t1 (.ListRunners r.Owner r.Repo) with
      | error err => trivial
      | ok runners =>
        by_cases hon : hasOnline label runners = true
        · simp [hon, Prog.Returns]
        · simpa [hon] using ih

/-! ## The claims -/

/-- C1 (the code at the failing inputs): in the modes `BestEffort` and
`MaxPerformance`, `LaunchInstance` makes no call at all (no price lookup, no
spot request, no run request) and returns the unknown-provisioning-mode error:
the dispatch has no case for the two modes, although `LaunchSpotInstance`
implements their fallback. -/
theorem LaunchInstance_bestEffort_maxPerformance_unknown_mode (w : World) (t : List Call)
    (cfg : EC2RunnerConfig) (region label token : String) (org : Bool) :
    (LaunchInstance ⟨⟨{ cfg with Spot := ⟨ProvisioningModeBestEffort, region⟩ }⟩⟩ label token
        org).run w t = (.returned (.error "unknown provisioning mode: BestEffort"), t) ∧
    (LaunchInstance ⟨⟨{ cfg with Spot := ⟨ProvisioningModeMaxPerformance, region⟩ }⟩⟩ label token
        org).run w t = (.returned (.error "unknown provisioning mode: MaxPerformance"), t) := by
  constructor <;>
  simp [LaunchInstance, ProvisioningModeBestEffort, ProvisioningModeMaxPerformance,
    ProvisioningModeNone, ProvisioningModeSpotOnly]

/-- The on-demand launch issues exactly one run request, first, built from the
label, token and org flag it was given. -/
theorem LaunchOnDemandInstance_trace (w : World) (r : AWSClient) (label token : String)
    (org : Bool) (t : List Call) :
    ∃ rest, ((LaunchOnDemandInstance r label token org).run w t).2 =
        t ++ Call.RunInstances (runInput r label token org) :: rest ∧
      ∀ c ∈ rest, c.isRunInstances = false := by
  simp only [LaunchOnDemandInstance, perform, Prog.bind_eq, Prog.bind_call, Prog.bind_ret,
    Prog.run_call, Prog.pure_eq]
  cases w.respond t (.RunInstances (runInput r label token org)) with
  | error e => exact ⟨[], by simp⟩
  | ok l =>
    cases l with
    | nil => exact ⟨[], by simp⟩
    | cons first rest =>
      obtain ⟨instanceId⟩ := first
      cases instanceId with
      | none => exact ⟨[], by simp [deref]⟩
      | some id =>
        simp only [deref, Prog.bind_ret, Prog.run_call]
        cases w.respond (t ++ [.RunInstances (runInput r label token org)])
            (.InstanceRunningWait [id] (6 * 60)) with
        | none => exact ⟨[.InstanceRunningWait [id] (6 * 60)], by simp [Call.isRunInstances]⟩
        | some e => exact ⟨[.InstanceRunningWait [id] (6 * 60)], by simp [Call.isRunInstances]⟩

/-- C2: in a run of `LaunchSpotInstance` in which the price is found, the spot
request is accepted and the fulfilment wait fails: in the modes `BestEffort` and
`MaxPerformance` the run continues as `LaunchOnDemandInstance` with the same
label, token and org flag and returns its result unchanged, and the calls made
are the three spot calls, then one run request built from that label, token and
flag, then no further run request; in every other mode the wait error is
returned and the three spot calls are all the calls made. -/
theorem LaunchSpotInstance_unfulfilled_fallback (w : World) (t : List Call) (r : AWSClient)
    (label token : String) (org : Bool) (p : SpotPricePoint) (ps : List SpotPricePoint) (maxPrice : String)
    (q : SpotInstanceRequest) (qs : List SpotInstanceRequest) (id : String) (err : Error)
    (hprice : w.respond t (.DescribeSpotPriceHistory (priceInput r.Ec2.config.EC2InstanceType)) =
      .ok (p :: ps))
    (hp : p.SpotPrice = some maxPrice)
    (hreq : w.respond (t ++ [.DescribeSpotPriceHistory (priceInput r.Ec2.config.EC2InstanceType)])
      (.RequestSpotInstances (spotInput r maxPrice label token org)) = .ok (q :: qs))
    (hq : q.SpotInstanceRequestId = some id)
    (hwait : w.respond (t ++ [.DescribeSpotPriceHistory (priceInput r.Ec2.config.EC2InstanceType),
        .RequestSpotInstances (spotInput r maxPrice label token org)])
      (.SpotInstanceRequestFulfilledWait [id] (6 * 60)) = some err) :
    (r.Ec2.config.Spot.ProvisioningMode = ProvisioningModeBestEffort ∨
        r.Ec2.config.Spot.ProvisioningMode = ProvisioningModeMaxPerformance →
      (LaunchSpotInstance r label token org).run w t =
        (LaunchOnDemandInstance r label token org).run w
          (t ++ [.DescribeSpotPriceHistory (priceInput r.Ec2.config.EC2InstanceType),
            .RequestSpotInstances (spotInput r maxPrice label token org),
            .SpotInstanceRequestFulfilledWait [id] (6 * 60)]) ∧
      ∃ rest, ((LaunchSpotInstance r label token org).run w t).2 =
          t ++ [.DescribeSpotPriceHistory (priceInput r.Ec2.config.EC2InstanceType),
            .RequestSpotInstances (spotInput r maxPrice label token org),
            .SpotInstanceRequestFulfilledWait [id] (6 * 60),
            .RunInstances (runInput r label token org)] ++ rest ∧
        ∀ c ∈ rest, c.isRunInstances = false) ∧
    (¬ (r.Ec2.config.Spot.ProvisioningMode = ProvisioningModeBestEffort ∨
        r.Ec2.config.Spot.ProvisioningMode = ProvisioningModeMaxPerformance) →
      (LaunchSpotInstance r label token org).run w t =
        (.returned (.error ("error waiting for spot instance request to be fulfilled: " ++ err)),
          t ++ [.DescribeSpotPriceHistory (priceInput r.Ec2.config.EC2InstanceType),
            .RequestSpotInstances (spotInput r maxPrice label token org),
            .SpotInstanceRequestFulfilledWait [id] (6 * 60)])) := by
  have key : (LaunchSpotInstance r label token org).run w t =
      (if r.Ec2.config.Spot.ProvisioningMode = ProvisioningModeBestEffort ∨
            r.Ec2.config.Spot.ProvisioningMode = ProvisioningModeMaxPerformance then
          LaunchOnDemandInstance r label token org
        else
          Prog.ret (.error ("error waiting for spot instance request to be fulfilled: " ++ err))).run
        w (t ++ [.DescribeSpotPriceHistory (priceInput r.Ec2.config.EC2InstanceType),
            .RequestSpotInstances (spotInput r maxPrice label token org),
            .SpotInstanceRequestFulfilledWait [id] (6 * 60)]) := by
    simp [LaunchSpotInstance, FetchSpotPrice, perform, hprice, hp, deref, hreq, hq, hwait]
  refine ⟨fun hmode => ?_, fun hmode => ?_⟩
  · rw [key, if_pos hmode]
    refine ⟨rfl, ?_⟩
    obtain ⟨rest, h1, h2⟩ := LaunchOnDemandInstance_trace w r label token org
      (t ++ [.DescribeSpotPriceHistory (priceInput r.Ec2.config.EC2InstanceType),
            .RequestSpotInstances (spotInput r maxPrice label token org),
            .SpotInstanceRequestFulfilledWait [id] (6 * 60)])
    exact ⟨rest, by simp [h1], h2⟩
  · rw [key, if_neg hmode]
    rfl

/-- C2, witness: mode `BestEffort`, a world in which the fulfilment wait fails. -/
theorem LaunchSpotInstance_unfulfilled_fallback_witness :
    (LaunchSpotInstance (NewAWSClient (sampleEC2Config "BestEffort")) "ec2-runner-1" "tok"
        false).run worldSpotUnfulfilled [] =
      (LaunchOnDemandInstance (NewAWSClient (sampleEC2Config "BestEffort")) "ec2-runner-1" "tok"
        false).run worldSpotUnfulfilled
        [.DescribeSpotPriceHistory (priceInput "t3.micro"),
          .RequestSpotInstances (spotInput (NewAWSClient (sampleEC2Config "BestEffort")) "0.01"
            "ec2-runner-1" "tok" false),
          .SpotInstanceRequestFulfilledWait ["sir-1"] (6 * 60)] :=
  ((LaunchSpotInstance_unfulfilled_fallback worldSpotUnfulfilled []
    (NewAWSClient (sampleEC2Config "BestEffort")) "ec2-runner-1" "tok" false
    { SpotPrice := some "0.01" } [] "0.01"
    { SpotInstanceRequestId := some "sir-1", InstanceId := none } [] "sir-1"
    "exceeded max wait time" rfl rfl rfl rfl rfl).1 (Or.inl rfl)).1

/-- C3 (counterexample): two teardowns return the same error, "failed to
terminate instance: boom".  In the first both releases fail (the agent is not
listed); in the second only the termination fails and the agent is removed.  The
returned error does not report the deregistration failure, and a caller cannot
tell "both failed" from "compute release failed". -/
theorem StopRunner_both_fail_not_aggregate :
    (StopRunner worldBothFail [] (sampleRunner "None" (some "i-1")) []).tasks =
        some (.done (some "failed to terminate instance: boom"),
          .done (some "runner not found")) ∧
      (StopRunner worldTerminateFails [false, false, false]
          (sampleRunner "None" (some "i-1")) []).tasks =
        some (.done (some "failed to terminate instance: boom"), .done none) ∧
      (StopRunner worldBothFail [] (sampleRunner "None" (some "i-1")) []).outcome =
        .returned (some "failed to terminate instance: boom") ∧
      (StopRunner worldTerminateFails [false, false, false]
          (sampleRunner "None" (some "i-1")) []).outcome =
        .returned (some "failed to terminate instance: boom") :=
  ⟨rfl, rfl, rfl, rfl⟩

/-- C3 (amended): in a teardown in which both releases fail, with errors `a`
(termination) and `b` (deregistration), both errors are sent on the channel and
`StopRunner` returns exactly one of them, the one sent first. -/
theorem StopRunner_both_fail_returns_first (w : World) (sched : Schedule) (r : Runner)
    (t : List Call) (instanceID : String) (a b : Error)
    (hid : r.instanceID = some instanceID)
    (hboth : (StopRunner w sched r t).tasks = some (.done (some a), .done (some b))) :
    ((StopRunner w sched r t).errChan = [a, b] ∧
        (StopRunner w sched r t).outcome = .returned (some a)) ∨
      ((StopRunner w sched r t).errChan = [b, a] ∧
        (StopRunner w sched r t).outcome = .returned (some b)) := by
  obtain ⟨r1, r2, hd1, hd2, -, -, hch, ho, -⟩ := joinTasks_outcome w sched t
    (StopRunner.terminate r instanceID) (StopRunner.deregister r)
    (StopRunner.terminate_returns w r instanceID) (StopRunner.deregister_returns w r)
  simp only [StopRunner, hid, Option.some.injEq, Prod.mk.injEq] at hboth ⊢
  rw [hd1, hd2] at hboth
  simp only [Goroutine.done.injEq] at hboth
  rw [hboth.1, hboth.2] at hch
  rw [ho]
  rcases hch with hch | hch
  · exact Or.inl ⟨by simpa using hch, by rw [hch]; rfl⟩
  · exact Or.inr ⟨by simpa using hch, by rw [hch]; rfl⟩

/-- C3 (amended), witness: termination fails and the agent is not listed. -/
theorem StopRunner_both_fail_returns_first_witness :
    ((StopRunner worldBothFail [] (sampleRunner "None" (some "i-1")) []).errChan =
          ["failed to terminate instance: boom", "runner not found"] ∧
        (StopRunner worldBothFail [] (sampleRunner "None" (some "i-1")) []).outcome =
          .returned (some "failed to terminate instance: boom")) ∨
      ((StopRunner worldBothFail [] (sampleRunner "None" (some "i-1")) []).errChan =
          ["runner not found", "failed to terminate instance: boom"] ∧
        (StopRunner worldBothFail [] (sampleRunner "None" (some "i-1")) []).outcome =
          .returned (some "runner not found")) :=
  StopRunner_both_fail_returns_first worldBothFail [] (sampleRunner "None" (some "i-1")) []
    "i-1" "failed to terminate instance: boom" "runner not found" rfl rfl

/-- C4: when the token is issued and the launch succeeds, both watchers run to
their end, and `StartRunner` returns success if and only if both `WaitForState`
(`e1`) and `WaitForRunnerRegistered` (`e2`) returned no error; otherwise it
returns an error that one of the two watchers returned. -/
theorem StartRunner_success_iff_both_watchers (w : World) (sched : Schedule) (r r1 : Runner)
    (t t1 : List Call)
    (hlaunch : (StartRunner.launch r).run w t = (.returned (r1, none), t1)) :
    ∃ e1 e2, (StartRunner w sched r t).tasks = some (.done e1, .done e2) ∧
      ((StartRunner w sched r t).outcome = .returned none ↔ e1 = none ∧ e2 = none) ∧
      (¬ (e1 = none ∧ e2 = none) →
        ∃ err, (StartRunner w sched r t).outcome = .returned (some err) ∧
          (e1 = some err ∨ e2 = some err)) := by
  obtain ⟨instanceID, hid⟩ := StartRunner.launch_instanceID w r r1 t t1 hlaunch
  obtain ⟨e1, e2, hd1, hd2, -, -, -, -, hiff, -, -, hor⟩ := joinTasks_outcome w sched t1
    (WaitForState r1.ec2Client instanceID)
    (WaitForRunnerRegistered r1.githubClient r1.runnerLabel maxPolls)
    (WaitForState_returns w r1.ec2Client instanceID)
    (WaitForRunnerRegistered_returns w r1.githubClient r1.runnerLabel maxPolls)
  have hrep : StartRunner w sched r t =
      { outcome := (joinTasks w sched t1 (WaitForState r1.ec2Client instanceID)
          (WaitForRunnerRegistered r1.githubClient r1.runnerLabel maxPolls)).outcome
        runner := r1
        trace := (joinTasks w sched t1 (WaitForState r1.ec2Client instanceID)
          (WaitForRunnerRegistered r1.githubClient r1.runnerLabel maxPolls)).trace
        tasks := some (.done e1, .done e2)
        errChan := (joinTasks w sched t1 (WaitForState r1.ec2Client instanceID)
          (WaitForRunnerRegistered r1.githubClient r1.runnerLabel maxPolls)).errChan } := by
    simp only [StartRunner, hlaunch, hid, hd1, hd2]
  rw [hrep]
  refine ⟨e1, e2, rfl, hiff, fun hne => ?_⟩
  rcases hor with h | h
  · cases e1 with
    | none => exact absurd (hiff.mp h) hne
    | some err => exact ⟨err, h, Or.inl rfl⟩
  · cases e2 with
    | none => exact absurd (hiff.mp h) hne
    | some err => exact ⟨err, h, Or.inr rfl⟩

/-- C4, witness: an on-demand launch that succeeds and two watchers that report
ready; `StartRunner` returns success. -/
theorem StartRunner_success_iff_both_watchers_witness :
    ∃ e1 e2, (StartRunner worldReady [true, false] (sampleRunner "None" none) []).tasks =
        some (.done e1, .done e2) ∧
      ((StartRunner worldReady [true, false] (sampleRunner "None" none) []).outcome =
        .returned none ↔ e1 = none ∧ e2 = none) ∧
      (¬ (e1 = none ∧ e2 = none) →
        ∃ err, (StartRunner worldReady [true, false] (sampleRunner "None" none) []).outcome =
            .returned (some err) ∧
          (e1 = some err ∨ e2 = some err)) :=
  StartRunner_success_iff_both_watchers worldReady [true, false] (sampleRunner "None" none)
    _ [] _ rfl

/-- C5: on a runner with an instance id, both release tasks run to their end;
the termination task returns `e1`, which is the answer of the
`TerminateInstances` call with an error wrapped as "failed to terminate
instance: ...", and the deregistration task returns `e2`, which is the
not-found error or the answer of the removal call.  `StopRunner` returns success
if and only if both are `nil`; when exactly one is an error, `StopRunner`
returns that error. -/
theorem StopRunner_success_iff_both_releases (w : World) (sched : Schedule) (r : Runner)
    (t : List Call) (instanceID : String) (hid : r.instanceID = some instanceID) :
    ∃ e1 e2, (StopRunner w sched r t).tasks = some (.done e1, .done e2) ∧
      (∃ t1, e1 = (w.respond t1 (.TerminateInstances [instanceID])).map
        (fun err => "failed to terminate instance: " ++ err)) ∧
      (e2 = some "runner not found" ∨ ∃ t2 runnerID,
        e2 = w.respond t2 (.RemoveRunner r.githubClient.Owner r.githubClient.Repo runnerID)) ∧
      ((StopRunner w sched r t).outcome = .returned none ↔ e1 = none ∧ e2 = none) ∧
      (∀ err, e1 = some err → e2 = none →
        (StopRunner w sched r t).outcome = .returned (some err)) ∧
      (∀ err, e1 = none → e2 = some err →
        (StopRunner w sched r t).outcome = .returned (some err)) := by
  obtain ⟨e1, e2, hd1, hd2, hp1, hp2, -, -, hiff, h1, h2, -⟩ := joinTasks_outcome w sched t
    (StopRunner.terminate r instanceID) (StopRunner.deregister r)
    (StopRunner.terminate_returns w r instanceID) (StopRunner.deregister_returns w r)
  simp only [StopRunner, hid, hd1, hd2]
  refine ⟨e1, e2, rfl, hp1, hp2, hiff, fun err he1 he2 => ?_, fun err he1 he2 => ?_⟩
  · rw [← he1]; exact h1 he2
  · rw [← he2]; exact h2 he1

/-- C5, witness: the termination fails, the agent is removed; the termination
failure is what `StopRunner` returns. -/
theorem StopRunner_success_iff_both_releases_witness :
    (StopRunner worldTerminateFails [false, false, false] (sampleRunner "None" (some "i-1"))
      []).outcome ≠ .returned none := by
  obtain ⟨e1, e2, htasks, -, -, hiff, -, -⟩ := StopRunner_success_iff_both_releases
    worldTerminateFails [false, false, false] (sampleRunner "None" (some "i-1")) [] "i-1" rfl
  intro h
  have h1 := (hiff.mp h).1
  have ht : (StopRunner worldTerminateFails [false, false, false]
      (sampleRunner "None" (some "i-1")) []).tasks =
      some (.done (some "failed to terminate instance: boom"), .done none) := rfl
  rw [ht, h1] at htasks
  simp at htasks

/-- C6 (the code at the failing input): the Registration Service lists the
agent and would remove it, but refuses requests made on a cancelled context.
When the termination fails before the deregistration starts, its `cancel()`
makes the listing fail, the agent is reported as not found and no removal call
is ever made; when the deregistration runs first, in the same world, the removal
call is made. -/
theorem StopRunner_termination_failure_prevents_removal :
    (StopRunner worldHonoursCancel [] (sampleRunner "None" (some "i-1")) []).trace =
        [.TerminateInstances ["i-1"], .Cancel, .ListRunners "acme" "app", .Cancel] ∧
      (StopRunner worldHonoursCancel [] (sampleRunner "None" (some "i-1")) []).tasks =
        some (.done (some "failed to terminate instance: boom"),
          .done (some "runner not found")) ∧
      (StopRunner worldHonoursCancel [false, false, false] (sampleRunner "None" (some "i-1"))
          []).trace =
        [.ListRunners "acme" "app", .RemoveRunner "acme" "app" 7,
          .TerminateInstances ["i-1"], .Cancel] :=
  ⟨rfl, rfl, rfl⟩

/-- C7: on a runner without an instance id, `StopRunner` returns the error
"no instance to terminate", makes no call (the trace is unchanged), spawns no
task and leaves the runner, its instance id and label included, as it was. -/
theorem StopRunner_no_instance (w : World) (sched : Schedule) (r : Runner) (t : List Call)
    (hid : r.instanceID = none) :
    (StopRunner w sched r t).outcome = .returned (some "no instance to terminate") ∧
      (StopRunner w sched r t).trace = t ∧
      (StopRunner w sched r t).tasks = none ∧
      (StopRunner w sched r t).runner = r ∧
      (StopRunner w sched r t).runner.instanceID = none ∧
      (StopRunner w sched r t).runner.runnerLabel = r.runnerLabel := by
  simp [StopRunner, hid]

/-- C7, witness: a runner that never launched. -/
theorem StopRunner_no_instance_witness :
    (StopRunner worldHonoursCancel [true, false] (sampleRunner "None" none) []).outcome =
        .returned (some "no instance to terminate") ∧
      (StopRunner worldHonoursCancel [true, false] (sampleRunner "None" none) []).trace = [] :=
  ⟨(StopRunner_no_instance worldHonoursCancel [true, false] (sampleRunner "None" none) []
      rfl).1,
    (StopRunner_no_instance worldHonoursCancel [true, false] (sampleRunner "None" none) []
      rfl).2.1⟩

theorem firstNamed_eq_zero (label : String) (runners : List GhRunner)
    (h : ∀ a ∈ runners, a.GetName ≠ label) : firstNamed label runners = 0 := by
  induction runners with
  | nil => rfl
  | cons a rest ih =>
    have ha : a.GetName ≠ label := h a (List.mem_cons_self _ _)
    simp only [firstNamed, ha, if_false]
    exact ih (fun b hb => h b (List.mem_cons_of_mem _ hb))

theorem firstNamed_eq_find (label : String) (runners : List GhRunner) (a : GhRunner)
    (h : runners.find? (fun x => decide (x.GetName = label)) = some a) :
    firstNamed label runners = a.GetID := by
  induction runners with
  | nil => simp at h
  | cons b rest ih =>
    by_cases hb : b.GetName = label
    · simp only [List.find?, hb, decide_True, Option.some.injEq] at h
      subst h
      simp [firstNamed, hb]
    · simp only [List.find?, hb, decide_False] at h
      simp only [firstNamed, hb, if_false]
      exact ih h

/-- C8: when the listing call succeeds with `runners`: if no entry is named
`label`, `RemoveGithubRunner` returns "runner not found" and the listing call is
the only call made; if the first entry named `label` is `a` and its id is not
zero, the calls made are the listing call and then one removal call with the id
of `a`, whose answer is returned. -/
theorem RemoveGithubRunner_lookup (w : World) (t : List Call) (gh : GitHubClient)
    (label : String) (runners : List GhRunner)
    (hlist : w.respond t (.ListRunners gh.Owner gh.Repo) = .ok runners) :
    ((∀ a ∈ runners, a.GetName ≠ label) →
      (RemoveGithubRunner gh label).run w t =
        (.returned (some "runner not found"), t ++ [.ListRunners gh.Owner gh.Repo])) ∧
    (∀ a, runners.find? (fun x => decide (x.GetName = label)) = some a → a.GetID ≠ 0 →
      (RemoveGithubRunner gh label).run w t =
        (.returned (w.respond (t ++ [.ListRunners gh.Owner gh.Repo])
            (.RemoveRunner gh.Owner gh.Repo a.GetID)),
          t ++ [.ListRunners gh.Owner gh.Repo, .RemoveRunner gh.Owner gh.Repo a.GetID])) := by
  constructor
  · intro hno
    simp [RemoveGithubRunner, getGithubRunnerID, perform, hlist, firstNamed_eq_zero label runners hno]
  · intro a hfind hid
    simp only [RemoveGithubRunner, getGithubRunnerID, perform, Prog.bind_eq, Prog.bind_call,
      Prog.bind_ret, Prog.pure_eq, Prog.run_call, hlist, firstNamed_eq_find label runners a hfind,
      hid, if_false]
    cases w.respond (t ++ [.ListRunners gh.Owner gh.Repo])
        (.RemoveRunner gh.Owner gh.Repo a.GetID) <;> simp

/-- C8, witness: the agent is listed with id 7 and is removed by that id. -/
theorem RemoveGithubRunner_lookup_witness :
    (RemoveGithubRunner (sampleGitHubClient false) "ec2-runner-1").run worldTerminateFails [] =
      (.returned none, [.ListRunners "acme" "app", .RemoveRunner "acme" "app" 7]) :=
  (RemoveGithubRunner_lookup worldTerminateFails [] (sampleGitHubClient false) "ec2-runner-1"
    [sampleAgent] rfl).2 sampleAgent rfl (by decide)

/-- C9 (the code at the failing input): when the listing call fails with `err`,
`RemoveGithubRunner` makes no further call and returns "runner not found", the
error it returns when the listing succeeds without a matching agent; `err` is
dropped. -/
theorem RemoveGithubRunner_listing_failure_reported_not_found (w : World) (t : List Call)
    (gh : GitHubClient) (label : String) (err : Error)
    (hfail : w.respond t (.ListRunners gh.Owner gh.Repo) = .error err) :
    (RemoveGithubRunner gh label).run w t =
      (.returned (some "runner not found"), t ++ [.ListRunners gh.Owner gh.Repo]) := by
  simp [RemoveGithubRunner, getGithubRunnerID, perform, hfail]

/-- C9, the failing input: the listing fails with "503 service unavailable". -/
theorem RemoveGithubRunner_listing_failure_reported_not_found_witness :
    (RemoveGithubRunner (sampleGitHubClient false) "ec2-runner-1").run worldListingFails [] =
      (.returned (some "runner not found"), [.ListRunners "acme" "app"]) :=
  RemoveGithubRunner_listing_failure_reported_not_found worldListingFails []
    (sampleGitHubClient false) "ec2-runner-1" "503 service unavailable" rfl

/-- The registration watcher only selects and lists at repository scope. -/
theorem WaitForRunnerRegistered_trace (w : World) (gh : GitHubClient) (label : String)
    (polls : Nat) (t : List Call) :
    ∃ rest, ((WaitForRunnerRegistered gh label polls).run w t).2 = t ++ rest ∧
      ∀ c ∈ rest, c = .Select ∨ c = .ListRunners gh.Owner gh.Repo := by
  induction polls generalizing t with
  | zero =>
    refine ⟨[.Select], ?_, by simp⟩
    simp only [WaitForRunnerRegistered, perform, Prog.bind_eq, Prog.bind_call, Prog.bind_ret,
      Prog.pure_eq, Prog.run_call]
    cases w.respond t .Select <;> rfl
  | succ n ih =>
    simp only [WaitForRunnerRegistered, perform, Prog.bind_eq, Prog.bind_call, Prog.bind_ret,
      Prog.pure_eq, Prog.run_call]
    cases w.respond t .Select with
    | ctxDone err => exact ⟨[.Select], rfl, by simp⟩
    | timeout => exact ⟨[.Select], rfl, by simp⟩
    | tick =>
      simp only [Prog.bind_call, Prog.bind_ret, Prog.run_call]
      cases w.respond (t ++ [.Select]) (.ListRunners gh.Owner gh.Repo) with
      | error err => exact ⟨[.Select, .ListRunners gh.Owner gh.Repo], by simp, by simp⟩
      | ok runners =>
        by_cases hon : hasOnline label runners = true
        · exact ⟨[.Select, .ListRunners gh.Owner gh.Repo], by simp [hon], by simp⟩
        · obtain ⟨rest, h1, h2⟩ := ih (t ++ [.Select] ++ [.ListRunners gh.Owner gh.Repo])
          refine ⟨.Select :: .ListRunners gh.Owner gh.Repo :: rest, ?_, ?_⟩
          · simp only [hon]
            simpa using h1
          · intro c hc
            simp only [List.mem_cons] at hc
            rcases hc with hc | hc | hc
            · exact Or.inl hc
            · exact Or.inr hc
            · exact h2 c hc

/-- C10 (the code, for either value of the flag): token issuance follows the
organization-runner flag, but the listing in `RemoveGithubRunner` and in
`WaitForRunnerRegistered` and the removal are made at repository scope (owner
and repository) whatever the flag is: with the flag set, as in the last
conjunct, the agent is looked up and removed with the repository endpoints. -/
theorem listing_and_removal_ignore_org_flag (w : World) (t : List Call) (gh : GitHubClient)
    (label kind : String) (polls : Nat) :
    ((CreateGitHubRegistrationToken gh kind).run w t).2 =
        t ++ [if gh.Action.OrgRunner then .CreateOrganizationRegistrationToken gh.Owner
          else .CreateRegistrationToken gh.Owner gh.Repo] ∧
      (∃ rest, ((RemoveGithubRunner gh label).run w t).2 =
          t ++ .ListRunners gh.Owner gh.Repo :: rest ∧
        ∀ c ∈ rest, c.scope = some (.repository gh.Owner gh.Repo)) ∧
      (∃ rest, ((WaitForRunnerRegistered gh label polls).run w t).2 = t ++ rest ∧
        ∀ c ∈ rest, c = .Select ∨ c = .ListRunners gh.Owner gh.Repo) ∧
      ((RemoveGithubRunner (sampleGitHubClient true) "ec2-runner-1").run worldTerminateFails
          []).2 = [.ListRunners "acme" "app", .RemoveRunner "acme" "app" 7] := by
  refine ⟨?_, ?_, WaitForRunnerRegistered_trace w gh label polls t, rfl⟩
  · simp only [CreateGitHubRegistrationToken, perform, Prog.bind_eq, Prog.pure_eq]
    cases gh.Action.OrgRunner with
    | true =>
      simp only [if_true, Prog.bind_call, Prog.bind_ret, Prog.run_call]
      cases w.respond t (.CreateOrganizationRegistrationToken gh.Owner) <;> rfl
    | false =>
      simp only [Bool.false_eq_true, if_false, Prog.bind_call, Prog.bind_ret, Prog.run_call]
      cases w.respond t (.CreateRegistrationToken gh.Owner gh.Repo) <;> rfl
  · simp only [RemoveGithubRunner, getGithubRunnerID, perform, Prog.bind_eq, Prog.bind_call,
      Prog.bind_ret, Prog.pure_eq, Prog.run_call]
    have key : ∀ runnerID : Int, ∃ rest,
        (((if runnerID = 0 then Prog.ret (some "runner not found")
          else
            (Prog.call (.RemoveRunner gh.Owner gh.Repo runnerID) Prog.ret).bind fun err =>
              match err with
              | some err => Prog.ret (some err)
              | none => Prog.ret none) : Prog (Option Error)).run w
            (t ++ [.ListRunners gh.Owner gh.Repo])).2 =
          t ++ .ListRunners gh.Owner gh.Repo :: rest ∧
        ∀ c ∈ rest, c.scope = some (.repository gh.Owner gh.Repo) := by
      intro runnerID
      by_cases h0 : runnerID = 0
      · exact ⟨[], by simp [h0], by simp⟩
      · refine ⟨[.RemoveRunner gh.Owner gh.Repo runnerID], ?_, by simp [Call.scope]⟩
        simp only [h0, if_false, Prog.bind_call, Prog.bind_ret, Prog.run_call]
        cases w.respond (t ++ [.ListRunners gh.Owner gh.Repo])
          (.RemoveRunner gh.Owner gh.Repo runnerID) <;> simp
    cases w.respond t (.ListRunners gh.Owner gh.Repo) with
    | error e => simp
    | ok runners => simpa using key (firstNamed label runners)

/-- The token request makes one call, at the scope the org flag selects. -/
theorem CreateGitHubRegistrationToken_trace (w : World) (t : List Call) (gh : GitHubClient)
    (kind : String) :
    ((CreateGitHubRegistrationToken gh kind).run w t).2 =
      t ++ [if gh.Action.OrgRunner then .CreateOrganizationRegistrationToken gh.Owner
        else .CreateRegistrationToken gh.Owner gh.Repo] := by
  simp only [CreateGitHubRegistrationToken, perform, Prog.bind_eq, Prog.pure_eq]
  cases gh.Action.OrgRunner with
  | true =>
    simp only [if_true, Prog.bind_call, Prog.bind_ret, Prog.run_call]
    cases w.respond t (.CreateOrganizationRegistrationToken gh.Owner) <;> rfl
  | false =>
    simp only [Bool.false_eq_true, if_false, Prog.bind_call, Prog.bind_ret, Prog.run_call]
    cases w.respond t (.CreateRegistrationToken gh.Owner gh.Repo) <;> rfl

/-- C11 (counterexample): with the provisioning mode "Bogus", `StartRunner`
fails with the unknown-provisioning-mode error only after it has requested a
registration token: the token request is in the trace. -/
theorem StartRunner_unknown_mode_after_token_request :
    (StartRunner quietWorld [] (sampleRunner "Bogus" none) []).outcome =
        .returned (some "failed to launch instance: unknown provisioning mode: Bogus") ∧
      (StartRunner quietWorld [] (sampleRunner "Bogus" none) []).trace =
        [.CreateRegistrationToken "acme" "app"] :=
  ⟨rfl, rfl⟩

/-- C11 (amended): for a provisioning mode that is none of `None`, `SpotOnly`,
`BestEffort`, `MaxPerformance`, when the registration token request succeeds
with a token, `StartRunner` returns "failed to launch instance: unknown
provisioning mode: <mode>"; the token request is the only call made (no price
lookup, no spot request, no run request), no watcher is started and the runner
holds no instance id. -/
theorem StartRunner_unknown_mode (w : World) (sched : Schedule) (r : Runner) (t t1 : List Call)
    (token : String)
    (hmode : r.ec2Client.Ec2.config.Spot.ProvisioningMode ∉
      [ProvisioningModeNone, ProvisioningModeSpotOnly, ProvisioningModeBestEffort,
        ProvisioningModeMaxPerformance])
    (htoken : (CreateGitHubRegistrationToken r.githubClient
        r.config.GithubRunnerConfig.GitHubTokenType).run w t =
      (.returned (.ok { Token := some token }), t1)) :
    (StartRunner w sched r t).outcome =
        .returned (some ("failed to launch instance: " ++ ("unknown provisioning mode: " ++
          r.ec2Client.Ec2.config.Spot.ProvisioningMode))) ∧
      (StartRunner w sched r t).trace =
        t ++ [if r.githubClient.Action.OrgRunner then
            .CreateOrganizationRegistrationToken r.githubClient.Owner
          else .CreateRegistrationToken r.githubClient.Owner r.githubClient.Repo] ∧
      (StartRunner w sched r t).tasks = none ∧
      (StartRunner w sched r t).runner.instanceID = none := by
  have ht1 : t1 = t ++ [if r.githubClient.Action.OrgRunner then
        .CreateOrganizationRegistrationToken r.githubClient.Owner
      else .CreateRegistrationToken r.githubClient.Owner r.githubClient.Repo] := by
    have h := CreateGitHubRegistrationToken_trace w t r.githubClient
      r.config.GithubRunnerConfig.GitHubTokenType
    rw [htoken] at h
    exact h
  simp only [List.mem_cons, List.mem_singleton, List.not_mem_nil, or_false, not_or] at hmode
  obtain ⟨h1, h2, -, -⟩ := hmode
  have hlaunch : (StartRunner.launch r).run w t =
      (.returned ({ r with
          githubClient := { r.githubClient with Action :=
            { r.githubClient.Action with RegistrationToken := some { Token := some token } } }
          instanceID := none },
        some ("failed to launch instance: " ++ ("unknown provisioning mode: " ++
          r.ec2Client.Ec2.config.Spot.ProvisioningMode))), t1) := by
    simp only [StartRunner.launch, Prog.bind_eq, Prog.run_bind, htoken, deref, Prog.bind_ret,
      LaunchInstance, h1, h2, if_false, Prog.pure_eq, Prog.run_ret]
  simp only [StartRunner, hlaunch, ht1, and_self]

/-- C11 (amended), witness: the mode "Bogus". -/
theorem StartRunner_unknown_mode_witness :
    (StartRunner quietWorld [true] (sampleRunner "Bogus" none) []).outcome =
      .returned (some "failed to launch instance: unknown provisioning mode: Bogus") :=
  (StartRunner_unknown_mode quietWorld [true] (sampleRunner "Bogus" none) [] _ "tok"
    (by decide) rfl).1

/-- C12: when the price history call succeeds with `history`: `FetchSpotPrice`
returns an error if and only if `history` is empty; for an empty history the
error is the no-price-data error, and `LaunchSpotInstance` returns the same
error in every provisioning mode with the price lookup as its only call (no spot
request, no run request); for a history whose first entry carries a price,
`FetchSpotPrice` returns that price. -/
theorem FetchSpotPrice_no_price_data (w : World) (t : List Call) (r : AWSClient)
    (history : List SpotPricePoint)
    (hresp : w.respond t (.DescribeSpotPriceHistory (priceInput r.Ec2.config.EC2InstanceType)) =
      .ok history) :
    ((∃ err t1, (FetchSpotPrice r r.Ec2.config.Spot.Region r.Ec2.config.EC2InstanceType).run w t =
        (.returned (.error err), t1)) ↔ history = []) ∧
    (history = [] →
      (FetchSpotPrice r r.Ec2.config.Spot.Region r.Ec2.config.EC2InstanceType).run w t =
        (.returned (.error ("no spot price history found for instance type " ++
            r.Ec2.config.EC2InstanceType ++ " in region " ++ r.Ec2.config.Spot.Region)),
          t ++ [.DescribeSpotPriceHistory (priceInput r.Ec2.config.EC2InstanceType)]) ∧
      ∀ (label token : String) (org : Bool),
        (LaunchSpotInstance r label token org).run w t =
          (.returned (.error ("no spot price history found for instance type " ++
              r.Ec2.config.EC2InstanceType ++ " in region " ++ r.Ec2.config.Spot.Region)),
            t ++ [.DescribeSpotPriceHistory (priceInput r.Ec2.config.EC2InstanceType)])) ∧
    (∀ first rest price, history = first :: rest → first.SpotPrice = some price →
      (FetchSpotPrice r r.Ec2.config.Spot.Region r.Ec2.config.EC2InstanceType).run w t =
        (.returned (.ok price),
          t ++ [.DescribeSpotPriceHistory (priceInput r.Ec2.config.EC2InstanceType)])) := by
  refine ⟨⟨?_, ?_⟩, ?_, ?_⟩
  · rintro ⟨err, t1, h⟩
    cases history with
    | nil => rfl
    | cons first rest =>
      obtain ⟨price⟩ := first
      cases price with
      | none => simp [FetchSpotPrice, perform, hresp, deref] at h
      | some price => simp [FetchSpotPrice, perform, hresp, deref] at h
  · intro h
    subst h
    refine ⟨"no spot price history found for instance type " ++
      r.Ec2.config.EC2InstanceType ++ " in region " ++ r.Ec2.config.Spot.Region,
      t ++ [.DescribeSpotPriceHistory (priceInput r.Ec2.config.EC2InstanceType)], ?_⟩
    simp [FetchSpotPrice, perform, hresp]
  · intro h
    subst h
    refine ⟨by simp [FetchSpotPrice, perform, hresp], fun label token org => ?_⟩
    simp [LaunchSpotInstance, FetchSpotPrice, perform, hresp]
  · intro first rest price h hp
    subst h
    simp [FetchSpotPrice, perform, hresp, hp, deref]

/-- C12, witness: the price history is empty; mode `BestEffort`. -/
theorem FetchSpotPrice_no_price_data_witness :
    (LaunchSpotInstance (NewAWSClient (sampleEC2Config "BestEffort")) "ec2-runner-1" "tok"
        false).run quietWorld [] =
      (.returned (.error
          "no spot price history found for instance type t3.micro in region eu-west-1"),
        [.DescribeSpotPriceHistory (priceInput "t3.micro")]) :=
  ((FetchSpotPrice_no_price_data quietWorld [] (NewAWSClient (sampleEC2Config "BestEffort")) []
    rfl).2.1 rfl).2 "ec2-runner-1" "tok" false

/-! ## Which calls a program can make -/

theorem Prog.calls_run {α : Type} {P : Call → Prop} (w : World) {p : Prog α}
    (h : p.Calls P) (t : List Call) :
    ∃ rest, (p.run w t).2 = t ++ rest ∧ ∀ c ∈ rest, P c := by
  induction p generalizing t with
  | ret a => exact ⟨[], by simp, by simp⟩
  | nilDeref => exact ⟨[], by simp, by simp⟩
  | fatal msg => exact ⟨[], by simp, by simp⟩
  | call c k ih =>
    obtain ⟨rest, h1, h2⟩ := ih (w.respond t c) (h.2 _) (t ++ [c])
    refine ⟨c :: rest, by simp [h1], ?_⟩
    intro d hd
    rcases List.mem_cons.mp hd with hd | hd
    · exact hd ▸ h.1
    · exact h2 d hd

theorem Prog.calls_bind {α β : Type} {P : Call → Prop} {p : Prog α} {f : α → Prog β}
    (hp : p.Calls P) (hf : ∀ a, (f a).Calls P) : (p.bind f).Calls P := by
  induction p with
  | ret a => exact hf a
  | nilDeref => trivial
  | fatal msg => trivial
  | call c k ih => exact ⟨hp.1, fun r => ih r (hp.2 r)⟩

theorem Prog.calls_perform {P : Call → Prop} (c : Call) (h : P c) : (perform c).Calls P :=
  ⟨h, fun _ => trivial⟩

theorem Prog.calls_deref {α : Type} {P : Call → Prop} (x : Option α) : (deref x).Calls P := by
  cases x <;> trivial

/-- The on-demand launch makes no spot price lookup and no spot request. -/
theorem LaunchOnDemandInstance_calls (r : AWSClient) (label token : String) (org : Bool) :
    (LaunchOnDemandInstance r label token org).Calls
      (fun c => c.isSpotPriceLookup = false ∧ c.isSpotRequest = false) := by
  unfold LaunchOnDemandInstance
  refine Prog.calls_bind (Prog.calls_perform _ ⟨rfl, rfl⟩) (fun result => ?_)
  rcases result with err | _ | ⟨first, rest⟩
  · trivial
  · trivial
  · refine Prog.calls_bind (Prog.calls_deref _) (fun instanceID => ?_)
    refine Prog.calls_bind (Prog.calls_perform _ ⟨rfl, rfl⟩) (fun err => ?_)
    cases err <;> trivial

theorem FetchSpotPrice_calls (r : AWSClient) (region instanceType : String) :
    (FetchSpotPrice r region instanceType).Calls (fun c => c.isRunInstances = false) := by
  unfold FetchSpotPrice
  refine Prog.calls_bind (Prog.calls_perform _ rfl) (fun result => ?_)
  rcases result with err | _ | ⟨first, rest⟩
  · trivial
  · trivial
  · exact Prog.calls_bind (Prog.calls_deref _) (fun price => trivial)

/-- Outside the modes `BestEffort` and `MaxPerformance` the spot launch makes no
run request. -/
theorem LaunchSpotInstance_calls (r : AWSClient) (label token : String) (org : Bool)
    (hmode : ¬ (r.Ec2.config.Spot.ProvisioningMode = ProvisioningModeBestEffort ∨
      r.Ec2.config.Spot.ProvisioningMode = ProvisioningModeMaxPerformance)) :
    (LaunchSpotInstance r label token org).Calls (fun c => c.isRunInstances = false) := by
  unfold LaunchSpotInstance
  refine Prog.calls_bind (FetchSpotPrice_calls r _ _) (fun price => ?_)
  rcases price with err | maxPrice
  · trivial
  · refine Prog.calls_bind (Prog.calls_perform _ rfl) (fun spotResult => ?_)
    rcases spotResult with err | _ | ⟨first, rest⟩
    · trivial
    · trivial
    · refine Prog.calls_bind (Prog.calls_deref _) (fun spotRequestID => ?_)
      refine Prog.calls_bind (Prog.calls_perform _ rfl) (fun err => ?_)
      cases err with
      | some err => simp only [hmode, if_false]; trivial
      | none =>
        refine Prog.calls_bind (Prog.calls_perform _ rfl) (fun describeResult => ?_)
        rcases describeResult with err | _ | ⟨⟨sid, _ | iid⟩, rest⟩ <;> trivial

/-- C13: in the mode `None`, `LaunchInstance` is `LaunchOnDemandInstance` (the
same calls, the same result) and makes no spot price lookup and no spot request;
in the mode `SpotOnly`, `LaunchInstance` is `LaunchSpotInstance`, and makes no
run request: the on-demand path is never entered. -/
theorem LaunchInstance_none_and_spotOnly (w : World) (t : List Call) (r : AWSClient)
    (label token : String) (org : Bool) :
    (r.Ec2.config.Spot.ProvisioningMode = ProvisioningModeNone →
      LaunchInstance r label token org = LaunchOnDemandInstance r label token org ∧
      ∃ rest, ((LaunchInstance r label token org).run w t).2 = t ++ rest ∧
        ∀ c ∈ rest, c.isSpotPriceLookup = false ∧ c.isSpotRequest = false) ∧
    (r.Ec2.config.Spot.ProvisioningMode = ProvisioningModeSpotOnly →
      LaunchInstance r label token org = LaunchSpotInstance r label token org ∧
      ∃ rest, ((LaunchInstance r label token org).run w t).2 = t ++ rest ∧
        ∀ c ∈ rest, c.isRunInstances = false) := by
  constructor
  · intro hmode
    have heq : LaunchInstance r label token org = LaunchOnDemandInstance r label token org := by
      simp [LaunchInstance, hmode]
    rw [heq]
    exact ⟨rfl, Prog.calls_run w (LaunchOnDemandInstance_calls r label token org) t⟩
  · intro hmode
    have heq : LaunchInstance r label token org = LaunchSpotInstance r label token org := by
      simp [LaunchInstance, hmode, ProvisioningModeSpotOnly, ProvisioningModeNone]
    have hnot : ¬ (r.Ec2.config.Spot.ProvisioningMode = ProvisioningModeBestEffort ∨
        r.Ec2.config.Spot.ProvisioningMode = ProvisioningModeMaxPerformance) := by
      rw [hmode]
      decide
    rw [heq]
    exact ⟨rfl, Prog.calls_run w (LaunchSpotInstance_calls r label token org hnot) t⟩

/-- C13, witness: the mode `SpotOnly`, a world in which the fulfilment wait
fails; the error is returned and no run request is made. -/
theorem LaunchInstance_none_and_spotOnly_witness :
    LaunchInstance (NewAWSClient (sampleEC2Config "SpotOnly")) "ec2-runner-1" "tok" false =
        LaunchSpotInstance (NewAWSClient (sampleEC2Config "SpotOnly")) "ec2-runner-1" "tok" false ∧
      ∃ rest, ((LaunchInstance (NewAWSClient (sampleEC2Config "SpotOnly")) "ec2-runner-1" "tok"
          false).run worldSpotUnfulfilled []).2 = [] ++ rest ∧
        ∀ c ∈ rest, c.isRunInstances = false :=
  (LaunchInstance_none_and_spotOnly worldSpotUnfulfilled []
    (NewAWSClient (sampleEC2Config "SpotOnly")) "ec2-runner-1" "tok" false).2 rfl

/-- The loop of the registration watcher finds an entry exactly when one has
the name and the status "online". -/
theorem hasOnline_iff (label : String) (runners : List GhRunner) :
    hasOnline label runners = true ↔
      ∃ a ∈ runners, a.GetName = label ∧ a.GetStatus = "online" := by
  induction runners with
  | nil => simp [hasOnline]
  | cons b rest ih =>
    by_cases hb : b.GetName = label ∧ b.GetStatus = "online"
    · simp only [hasOnline, hb, and_self, if_true, List.mem_cons, true_iff]
      exact ⟨b, Or.inl rfl, hb⟩
    · simp only [hasOnline, hb, if_false, ih, List.mem_cons]
      constructor
      · rintro ⟨a, ha, h⟩
        exact ⟨a, Or.inr ha, h⟩
      · rintro ⟨a, ha | ha, h⟩
        · exact absurd (ha ▸ h) hb
        · exact ⟨a, ha, h⟩

/-- A program that starts with a call records that call first. -/
theorem Prog.run_call_extends {α : Type} (w : World) (c : Call) (k : c.Resp → Prog α)
    (t : List Call) : ∃ rest, ((Prog.call c k).run w t).2 = t ++ c :: rest := by
  obtain ⟨rest, h⟩ := Prog.run_trace_extends w (k (w.respond t c)) (t ++ [c])
  exact ⟨rest, by rw [Prog.run_call, h]; simp⟩

/-- Every run of the registration watcher starts with a `select`. -/
theorem WaitForRunnerRegistered_selects (w : World) (gh : GitHubClient) (label : String)
    (polls : Nat) (t : List Call) :
    ∃ rest, ((WaitForRunnerRegistered gh label polls).run w t).2 = t ++ .Select :: rest := by
  cases polls with
  | zero =>
    simp only [WaitForRunnerRegistered, perform, Prog.bind_eq, Prog.bind_call, Prog.bind_ret]
    exact Prog.run_call_extends w _ _ t
  | succ n =>
    simp only [WaitForRunnerRegistered, perform, Prog.bind_eq, Prog.bind_call, Prog.bind_ret]
    exact Prog.run_call_extends w _ _ t

/-- One poll of the registration watcher: when the ticker fires and the listing
call succeeds with `runners`, the watcher continues past the listing as `ready`
does if an entry is online under the label, and as the next round does
otherwise. -/
theorem WaitForRunnerRegistered_round (w : World) (t : List Call) (gh : GitHubClient)
    (label : String) (polls : Nat) (htick : w.respond t .Select = .tick) :
    (WaitForRunnerRegistered gh label (polls + 1)).run w t =
      match w.respond (t ++ [.Select]) (.ListRunners gh.Owner gh.Repo) with
      | .error err => (.returned (some err), t ++ [.Select, .ListRunners gh.Owner gh.Repo])
      | .ok runners =>
        if hasOnline label runners = true then
          (.returned none, t ++ [.Select, .ListRunners gh.Owner gh.Repo])
        else
          (WaitForRunnerRegistered gh label polls).run w
            (t ++ [.Select, .ListRunners gh.Owner gh.Repo]) := by
  simp only [WaitForRunnerRegistered, perform, Prog.bind_eq, Prog.bind_call, Prog.bind_ret,
    Prog.run_call, htick, Prog.pure_eq]
  cases w.respond (t ++ [.Select]) (.ListRunners gh.Owner gh.Repo) with
  | error err => simp
  | ok runners =>
    by_cases hon : hasOnline label runners = true
    · simp [hon]
    · simp [hon]

/-- C14: on a poll (the ticker fires), with `polls + 1` ticks still possible:
when the listing call succeeds with `runners`, the watcher reports ready on this
poll (returns `nil` right after this listing call) if and only if `runners` has
an entry whose name is the label and whose status is "online", and otherwise it
goes on to the next round; when the listing call fails with `err`, the watcher
returns `err` right after the call. -/
theorem WaitForRunnerRegistered_poll (w : World) (t : List Call) (gh : GitHubClient)
    (label : String) (polls : Nat) (htick : w.respond t .Select = .tick) :
    (∀ runners, w.respond (t ++ [.Select]) (.ListRunners gh.Owner gh.Repo) = .ok runners →
      ((WaitForRunnerRegistered gh label (polls + 1)).run w t =
          (.returned none, t ++ [.Select, .ListRunners gh.Owner gh.Repo]) ↔
        ∃ a ∈ runners, a.GetName = label ∧ a.GetStatus = "online") ∧
      (¬ (∃ a ∈ runners, a.GetName = label ∧ a.GetStatus = "online") →
        (WaitForRunnerRegistered gh label (polls + 1)).run w t =
          (WaitForRunnerRegistered gh label polls).run w
            (t ++ [.Select, .ListRunners gh.Owner gh.Repo]))) ∧
    (∀ err, w.respond (t ++ [.Select]) (.ListRunners gh.Owner gh.Repo) = .error err →
      (WaitForRunnerRegistered gh label (polls + 1)).run w t =
        (.returned (some err), t ++ [.Select, .ListRunners gh.Owner gh.Repo])) := by
  have hround := WaitForRunnerRegistered_round w t gh label polls htick
  refine ⟨fun runners hlist => ?_, fun err hlist => ?_⟩
  · rw [hlist] at hround
    by_cases hon : hasOnline label runners = true
    · have hex := (hasOnline_iff label runners).mp hon
      simp only [if_pos hon] at hround
      exact ⟨⟨fun _ => hex, fun _ => hround⟩, fun hno => absurd hex hno⟩
    · have hno : ¬ ∃ a ∈ runners, a.GetName = label ∧ a.GetStatus = "online" :=
        fun h => hon ((hasOnline_iff label runners).mpr h)
      simp only [if_neg hon] at hround
      refine ⟨⟨fun hready => ?_, fun h => absurd h hno⟩, fun _ => hround⟩
      exfalso
      obtain ⟨rest, hrest⟩ := WaitForRunnerRegistered_selects w gh label polls
        (t ++ [.Select, .ListRunners gh.Owner gh.Repo])
      rw [← hround, hready] at hrest
      have hlen := congrArg List.length hrest
      simp at hlen
  · rw [hlist] at hround
    exact hround

/-- C14, witness: the agent is listed and online; the first poll reports ready. -/
theorem WaitForRunnerRegistered_poll_witness :
    (WaitForRunnerRegistered (sampleGitHubClient false) "ec2-runner-1" (29 + 1)).run worldReady
        [] =
      (.returned none, [] ++ [.Select, .ListRunners "acme" "app"]) :=
  (((WaitForRunnerRegistered_poll worldReady [] (sampleGitHubClient false) "ec2-runner-1" 29
    rfl).1 [sampleAgent] rfl).1).mpr ⟨sampleAgent, List.mem_singleton.mpr rfl, rfl, rfl⟩

/-- A run that starts right after a call keeps that call in its trace. -/
theorem Prog.run_after_call {α : Type} (w : World) (p : Prog α) (t : List Call) (c : Call) :
    ∃ rest, (p.run w (t ++ [c])).2 = t ++ c :: rest := by
  obtain ⟨rest, h⟩ := Prog.run_trace_extends w p (t ++ [c])
  exact ⟨rest, by rw [h]; simp⟩

/-- When the price lookup yields `maxPrice`, the spot launch submits the spot
request `spotInput` builds for it, right after the lookup. -/
theorem LaunchSpotInstance_submits (w : World) (t : List Call) (r : AWSClient)
    (maxPrice label token : String) (org : Bool) (p : SpotPricePoint)
    (ps : List SpotPricePoint)
    (hprice : w.respond t (.DescribeSpotPriceHistory (priceInput r.Ec2.config.EC2InstanceType)) =
      .ok (p :: ps))
    (hp : p.SpotPrice = some maxPrice) :
    ∃ rest, ((LaunchSpotInstance r label token org).run w t).2 =
      t ++ [.DescribeSpotPriceHistory (priceInput r.Ec2.config.EC2InstanceType)] ++
        .RequestSpotInstances (spotInput r maxPrice label token org) :: rest := by
  simp only [LaunchSpotInstance, FetchSpotPrice, perform, Prog.bind_eq, Prog.bind_call,
    Prog.bind_ret, Prog.pure_eq, Prog.run_call, hprice, hp, deref]
  exact Prog.run_after_call w _ _ _

/-- C15: for every configuration, price, label, token and org flag, the spot
request `LaunchSpotInstance` submits (`spotInput`) and the run request
`LaunchOnDemandInstance` submits (`runInput`) agree on image, instance class,
subnet, security groups, IAM instance profile (set in both or in neither) and
boot payload; the tags carried by the tag specifications are in both the
configured resource tags; and each asks for exactly one instance. -/
theorem spot_and_onDemand_requests_agree (r : AWSClient) (maxPrice label token : String)
    (org : Bool) :
    (∃ spec, (spotInput r maxPrice label token org).LaunchSpecification = some spec ∧
      spec.ImageId = (runInput r label token org).ImageId ∧
      spec.InstanceType = (runInput r label token org).InstanceType ∧
      spec.SubnetId = (runInput r label token org).SubnetId ∧
      spec.SecurityGroupIds = (runInput r label token org).SecurityGroupIds ∧
      spec.IamInstanceProfile = (runInput r label token org).IamInstanceProfile ∧
      spec.UserData = (runInput r label token org).UserData) ∧
    ((spotInput r maxPrice label token org).TagSpecifications.flatMap (fun s => s.Tags) =
      r.Ec2.config.AWSResourceTags) ∧
    ((runInput r label token org).TagSpecifications.flatMap (fun s => s.Tags) =
      r.Ec2.config.AWSResourceTags) ∧
    (spotInput r maxPrice label token org).InstanceCount = some 1 ∧
    (runInput r label token org).MinCount = some 1 ∧
    (runInput r label token org).MaxCount = some 1 ∧
    (∀ (w : World) (t : List Call), ∃ rest,
      ((LaunchOnDemandInstance r label token org).run w t).2 =
        t ++ .RunInstances (runInput r label token org) :: rest) ∧
    (∀ (w : World) (t : List Call) (p : SpotPricePoint) (ps : List SpotPricePoint),
      w.respond t (.DescribeSpotPriceHistory (priceInput r.Ec2.config.EC2InstanceType)) =
        .ok (p :: ps) →
      p.SpotPrice = some maxPrice →
      ∃ rest, ((LaunchSpotInstance r label token org).run w t).2 =
        t ++ [.DescribeSpotPriceHistory (priceInput r.Ec2.config.EC2InstanceType)] ++
          .RequestSpotInstances (spotInput r maxPrice label token org) :: rest) := by
  refine ⟨?_, ?_, ?_, ?_, ?_, ?_, ?_, ?_⟩
  · by_cases hrole : r.Ec2.config.IamInstanceRole = ""
    · exact ⟨_, by simp only [spotInput, hrole]; rfl, by simp [runInput, hrole]⟩
    · exact ⟨_, by simp only [spotInput, hrole]; rfl, by simp [runInput, hrole]⟩
  · cases htags : r.Ec2.config.AWSResourceTags with
    | nil => simp [spotInput, htags]
    | cons tag tags => simp [spotInput, htags]
  · by_cases hrole : r.Ec2.config.IamInstanceRole = "" <;> simp [runInput, hrole]
  · simp [spotInput]
  · by_cases hrole : r.Ec2.config.IamInstanceRole = "" <;> simp [runInput, hrole]
  · by_cases hrole : r.Ec2.config.IamInstanceRole = "" <;> simp [runInput, hrole]
  · intro w t
    obtain ⟨rest, h, -⟩ := LaunchOnDemandInstance_trace w r label token org t
    exact ⟨rest, h⟩
  · intro w t p ps hprice hp
    exact LaunchSpotInstance_submits w t r maxPrice label token org p ps hprice hp

/-- C16: a runner returned by `NewRunner` has no instance id and an empty
label; `StopRunner` on it returns "no instance to terminate" and makes no call;
and the process in mode "stop", which calls `StopRunner` on the fresh runner,
ends in `log.Fatalf` with that error, having made no call. -/
theorem NewRunner_fresh_stop_fails (config : RunnerConfig) (repository : String) (r : Runner)
    (hnew : NewRunner config repository = .ok r) :
    r.instanceID = none ∧ r.runnerLabel = "" ∧
      (∀ (w : World) (sched : Schedule) (t : List Call),
        (StopRunner w sched r t).outcome = .returned (some "no instance to terminate") ∧
        (StopRunner w sched r t).trace = t) ∧
      (config.Mode = "stop" → ∀ (w : World) (sched : Schedule) (now : String) (t : List Call),
        (main w sched config repository now t).outcome =
          .aborted (.fatal ("Failed to stop runner: " ++ "no instance to terminate")) ∧
        (main w sched config repository now t).trace = t) := by
  have hid : r.instanceID = none ∧ r.runnerLabel = "" := by
    unfold NewRunner at hnew
    cases hgh : NewGithubClient config.GithubRunnerConfig repository with
    | error err => simp [hgh] at hnew
    | ok githubClient =>
      simp only [hgh, Except.ok.injEq] at hnew
      subst hnew
      exact ⟨rfl, rfl⟩
  refine ⟨hid.1, hid.2, fun w sched t => by simp [StopRunner, hid.1], ?_⟩
  intro hmode w sched now t
  simp [main, hnew, hmode, StopRunner, hid.1]

/-- C16, witness: the process in mode "stop" for the repository "acme/app". -/
theorem NewRunner_fresh_stop_fails_witness :
    (main worldHonoursCancel [true, false] (sampleRunner "None" none).config "acme/app"
        "20240101120000" []).outcome =
      .aborted (.fatal "Failed to stop runner: no instance to terminate") ∧
    (main worldHonoursCancel [true, false] (sampleRunner "None" none).config "acme/app"
        "20240101120000" []).trace = [] :=
  (NewRunner_fresh_stop_fails (sampleRunner "None" none).config "acme/app"
    { (sampleRunner "None" none) with runnerLabel := "" } rfl).2.2.2 rfl worldHonoursCancel
    [true, false] "20240101120000" []

/-! ## `parseRepositoryURL` -/

/-- The first part of a split is the text before the first separator. -/
theorem splitChars_head (sep : Char) (l : List Char) :
    ∃ ps, splitChars sep l = l.takeWhile (fun c => decide (c ≠ sep)) :: ps := by
  induction l with
  | nil => exact ⟨[], rfl⟩
  | cons c cs ih =>
    by_cases hc : c = sep
    · exact ⟨splitChars sep cs, by simp [splitChars, hc]⟩
    · obtain ⟨ps, h⟩ := ih
      exact ⟨ps, by simp [splitChars, hc, h]⟩

/-- Without a separator the split has one part. -/
theorem splitChars_of_not_mem (sep : Char) (l : List Char) (h : sep ∉ l) :
    splitChars sep l = [l] := by
  induction l with
  | nil => rfl
  | cons c cs ih =>
    have hc : c ≠ sep := fun e => h (e ▸ List.mem_cons_self _ _)
    have hcs : sep ∉ cs := fun e => h (List.mem_cons_of_mem _ e)
    simp [splitChars, hc, ih hcs]

/-- With a separator the split is the text before the first one, followed by
the split of the text after it. -/
theorem splitChars_of_mem (sep : Char) (l : List Char) (h : sep ∈ l) :
    splitChars sep l = l.takeWhile (fun c => decide (c ≠ sep)) ::
      splitChars sep ((l.dropWhile (fun c => decide (c ≠ sep))).drop 1) := by
  induction l with
  | nil => simp at h
  | cons c cs ih =>
    by_cases hc : c = sep
    · simp [splitChars, hc]
    · have hcs : sep ∈ cs := by
        rcases List.mem_cons.mp h with e | e
        · exact absurd e.symm hc
        · exact e
      simp [splitChars, hc, ih hcs]

/-- Removing a leading text that was just put in front gives the rest back. -/
theorem TrimPrefix_append (pre s : String) : TrimPrefix (pre ++ s) pre = s := by
  have h1 : (pre ++ s).toList = pre.toList ++ s.toList := by
    simp [String.toList]
  have h2 : pre.toList.isPrefixOf (pre.toList ++ s.toList) = true := by
    rw [List.isPrefixOf_iff_prefix]
    exact List.prefix_append _ _
  have h3 : pre.length = pre.toList.length := rfl
  simp only [TrimPrefix, h1, h2, if_true, h3, List.drop_left]
  rfl

/-- A text that does not start with the leading text is left as it is. -/
theorem TrimPrefix_of_not_prefix (pre s : String)
    (h : pre.toList.isPrefixOf s.toList = false) : TrimPrefix s pre = s := by
  unfold TrimPrefix
  rw [h]
  rfl

/-- C17: let `rest` be `s` without one leading "https://github.com/" (removed
when present, as `TrimPrefix_append` and `TrimPrefix_of_not_prefix` say).
`parseRepositoryURL s` fails with "invalid repository URL" if and only if `rest`
has no '/'; otherwise it returns as owner the text before the first '/' of
`rest` and as repository the text after it up to the next '/' or the end;
and for `s` that does not start with "https://github.com/", putting that text in
front does not change the result. -/
theorem parseRepositoryURL_spec (s : String) :
    (parseRepositoryURL s = .error "invalid repository URL" ↔
      '/' ∉ (TrimPrefix s "https://github.com/").toList) ∧
    ('/' ∈ (TrimPrefix s "https://github.com/").toList →
      parseRepositoryURL s = .ok
        (String.mk ((TrimPrefix s "https://github.com/").toList.takeWhile
            (fun c => decide (c ≠ '/'))),
          String.mk ((((TrimPrefix s "https://github.com/").toList.dropWhile
            (fun c => decide (c ≠ '/'))).drop 1).takeWhile (fun c => decide (c ≠ '/'))))) ∧
    (∀ s1 : String, TrimPrefix ("https://github.com/" ++ s1) "https://github.com/" = s1) ∧
    ("https://github.com/".toList.isPrefixOf s.toList = false →
      parseRepositoryURL ("https://github.com/" ++ s) = parseRepositoryURL s) := by
  have hmem : '/' ∈ (TrimPrefix s "https://github.com/").toList →
      parseRepositoryURL s = .ok
        (String.mk ((TrimPrefix s "https://github.com/").toList.takeWhile
            (fun c => decide (c ≠ '/'))),
          String.mk ((((TrimPrefix s "https://github.com/").toList.dropWhile
            (fun c => decide (c ≠ '/'))).drop 1).takeWhile (fun c => decide (c ≠ '/')))) := by
    intro h
    obtain ⟨ps, hps⟩ := splitChars_head '/'
      (((TrimPrefix s "https://github.com/").toList.dropWhile
        (fun c => decide (c ≠ '/'))).drop 1)
    simp only [parseRepositoryURL, SplitSlash, splitChars_of_mem '/' _ h, hps, List.map_cons]
  refine ⟨⟨fun herr => ?_, fun hno => ?_⟩, hmem, fun s1 => TrimPrefix_append _ s1, fun hpre => ?_⟩
  · intro h
    rw [hmem h] at herr
    simp at herr
  · simp only [parseRepositoryURL, SplitSlash, splitChars_of_not_mem '/' _ hno, List.map_cons,
      List.map_nil]
  · simp only [parseRepositoryURL, TrimPrefix_append,
      TrimPrefix_of_not_prefix "https://github.com/" s hpre]

end AwsGithubRunner
